import Mathlib

/-!
# Mobile input translator (`src/mobile/mobile_input.cpp`)

A shallow embedding of the touch-input translation layer: the process-wide
`InputState` snapshot, its setters, and the per-frame `update` that turns the
snapshot into commands on the focused game entity.

* `float` is IEEE-754 binary32.  A finite value is a sign and a magnitude counted
  in units of `2^-149` (the smallest subnormal), so every finite binary32 value is
  `F32.fin neg k` for exactly one `k`; comparisons are integer comparisons and the
  arithmetic rounds to nearest, ties to even.
* `int` is 32-bit two's complement (`wrap32`).
* The engine (`game`, `view`, `game_object`) and libm are not part of this
  component; what the code reads from them is a field, what it calls on them is a
  recorded command, and what they compute is a parameter (`Platform`).
-/

namespace mobile_input

/-! ## binary32 -/

/-- An IEEE-754 binary32 datum. `fin neg k` is the finite value `(-1)^neg * k * 2^-149`. -/
inductive F32 where
  | nan : F32
  | inf (neg : Bool) : F32
  | fin (neg : Bool) (k : Nat) : F32
deriving DecidableEq

namespace F32

/-- Number of `2^-149` units in `1.0`. -/
def unit : Nat := 2 ^ 149

/-- Largest finite binary32 magnitude, `(2^24 - 1) * 2^104`, in units. -/
def maxFinite : Nat := (2 ^ 24 - 1) * 2 ^ 253

/-- Halve `q` until it fits in 24 bits, counting the halvings (`fuel` bounds them). -/
def dropBits : Nat → Nat → Nat
  | 0, _ => 0
  | fuel + 1, q => if q < 2 ^ 24 then 0 else dropBits fuel (q / 2) + 1

/-- Number of low-order bits of `q` beyond a 24-bit significand. -/
def excessBits (q : Nat) : Nat := dropBits q q

/-- Round the non-negative rational `n / d` (a magnitude in units) to the nearest
magnitude with at most 24 significant bits, ties to even. -/
def roundUnits (n d : Nat) : Nat :=
  let q := n / d
  let s := excessBits q
  let u := d * 2 ^ s
  let m := n / u
  let r := n % u
  if u < 2 * r ∨ (2 * r = u ∧ m % 2 = 1) then (m + 1) * 2 ^ s else m * 2 ^ s

/-- The binary32 result of an operation whose exact value is `(-1)^neg * n / d` units. -/
def round (neg : Bool) (n d : Nat) : F32 :=
  if roundUnits n d ≤ maxFinite then fin neg (roundUnits n d) else inf neg

/-- A magnitude is a binary32 magnitude: at most 24 significant bits, within range. -/
def RepresentableUnits (k : Nat) : Prop := roundUnits k 1 = k ∧ k ≤ maxFinite

instance (k : Nat) : Decidable (RepresentableUnits k) := by
  unfold RepresentableUnits; infer_instance

/-- The datum is one a `float` variable can hold. -/
def Representable : F32 → Prop
  | fin _ k => RepresentableUnits k
  | _ => True

instance (x : F32) : Decidable (Representable x) := by
  cases x <;> unfold Representable <;> infer_instance

/-- The value of a decimal literal `n / d` with suffix `f`. -/
def lit (n d : Nat) : F32 := round false (n * unit) d

/-- The signed count of units of a finite value. -/
def signed (neg : Bool) (k : Nat) : Int := if neg then -(k : Int) else (k : Int)

/-- Unary minus. -/
def neg : F32 → F32
  | nan => nan
  | inf n => inf (!n)
  | fin n k => fin (!n) k

/-- The function `std::abs(float)`. -/
def abs : F32 → F32
  | nan => nan
  | inf _ => inf false
  | fin _ k => fin false k

/-- The operator `<` on `float`: false whenever an operand is NaN. -/
def lt : F32 → F32 → Bool
  | nan, _ => false
  | _, nan => false
  | inf n1, inf n2 => n1 && !n2
  | inf n, fin _ _ => n
  | fin _ _, inf n => !n
  | fin n1 k1, fin n2 k2 => decide (signed n1 k1 < signed n2 k2)

/-- The operator `==` on `float`: false whenever an operand is NaN, `-0 == +0`. -/
def eq : F32 → F32 → Bool
  | nan, _ => false
  | _, nan => false
  | inf n1, inf n2 => n1 == n2
  | inf _, fin _ _ => false
  | fin _ _, inf _ => false
  | fin n1 k1, fin n2 k2 => decide (signed n1 k1 = signed n2 k2)

/-- The operator `<=` on `float`: false whenever an operand is NaN. -/
def le : F32 → F32 → Bool
  | nan, _ => false
  | _, nan => false
  | inf n1, inf n2 => n1 || !n2
  | inf n, fin _ _ => n
  | fin _ _, inf n => !n
  | fin n1 k1, fin n2 k2 => decide (signed n1 k1 ≤ signed n2 k2)

/-- The operator `!=` on `float`. -/
def ne (a b : F32) : Bool := !(eq a b)

/-- The operator `>` on `float`. -/
def gt (a b : F32) : Bool := lt b a

/-- The operator `*` on `float`. -/
def mul : F32 → F32 → F32
  | nan, _ => nan
  | _, nan => nan
  | inf n1, inf n2 => inf (xor n1 n2)
  | inf n1, fin n2 k => if k = 0 then nan else inf (xor n1 n2)
  | fin n1 k, inf n2 => if k = 0 then nan else inf (xor n1 n2)
  | fin n1 k1, fin n2 k2 => round (xor n1 n2) (k1 * k2) unit

/-- The operator `/` on `float`. -/
def div : F32 → F32 → F32
  | nan, _ => nan
  | _, nan => nan
  | inf _, inf _ => nan
  | inf n1, fin n2 _ => inf (xor n1 n2)
  | fin n1 _, inf n2 => fin (xor n1 n2) 0
  | fin n1 k1, fin n2 k2 =>
    if k2 = 0 then (if k1 = 0 then nan else inf (xor n1 n2))
    else round (xor n1 n2) (k1 * unit) k2

/-- Conversion `int → float`. -/
def ofInt (i : Int) : F32 := round (decide (i < 0)) (i.natAbs * unit) 1

end F32

/-- Reduce an integer to the range of a 32-bit two's complement `int`. -/
def wrap32 (i : Int) : Int := (i + 2 ^ 31) % 2 ^ 32 - 2 ^ 31

/-- Conversion `float → int`: truncation toward zero.  Outside the range of `int`
(and for NaN and infinities) C++ leaves the result undefined; `undef` supplies it. -/
def F32.toInt (undef : F32 → Int) : F32 → Int
  | F32.fin n k =>
    if F32.signed n (k / F32.unit) < 2 ^ 31 ∧ -(2 ^ 31) ≤ F32.signed n (k / F32.unit)
    then F32.signed n (k / F32.unit)
    else wrap32 (undef (F32.fin n k))
  | x => wrap32 (undef x)

/-! ## The input snapshot (`mobile_input.h`) -/

/-- Touch input state. -/
structure InputState where
  joystick_x : F32
  joystick_y : F32
  aim_screen_x : F32
  aim_screen_y : F32
  fire_pressed : Bool
  jump_pressed : Bool
  special_pressed : Bool
deriving DecidableEq

/-- The constructor `InputState()`. -/
def InputState.default : InputState :=
  { joystick_x := F32.lit 0 1
    joystick_y := F32.lit 0 1
    aim_screen_x := F32.lit 0 1
    aim_screen_y := F32.lit 0 1
    fire_pressed := false
    jump_pressed := false
    special_pressed := false }

/-! ## Constants and helpers (`mobile_input.cpp`) -/

/-- The constant `JOYSTICK_DEADZONE = 0.1f`. -/
def JOYSTICK_DEADZONE : F32 := F32.lit 1 10

/-- The constant `CROUCH_THRESHOLD = 0.5f`. -/
def CROUCH_THRESHOLD : F32 := F32.lit 5 10

/-- The constant `JUMP_THRESHOLD = -0.5f`. -/
def JUMP_THRESHOLD : F32 := F32.neg (F32.lit 5 10)

/-- The library template `std::min(a, b)`, that is `(b < a) ? b : a`. -/
def std_min (a b : F32) : F32 := if F32.lt b a then b else a

/-- The library template `std::max(a, b)`, that is `(a < b) ? b : a`. -/
def std_max (a b : F32) : F32 := if F32.lt a b then b else a

/-- The helper `clamp(value, min, max) = std::max(min, std::min(max, value))`. -/
def clamp (value min max : F32) : F32 := std_max min (std_min max value)

/-- The function `initialize()` of the source. -/
def init_input (_s : InputState) : InputState := InputState.default

/-- The function `clear_input()`. -/
def clear_input (_s : InputState) : InputState := InputState.default

/-- The function `shutdown()` calls `clear_input()`. -/
def shutdown (s : InputState) : InputState := clear_input s

/-- The function `set_movement_input(x, y)`. -/
def set_movement_input (x y : F32) (s : InputState) : InputState :=
  { s with
    joystick_x := clamp x (F32.neg (F32.lit 1 1)) (F32.lit 1 1)
    joystick_y := clamp y (F32.neg (F32.lit 1 1)) (F32.lit 1 1) }

/-- The function `set_aim_position(screen_x, screen_y)`. -/
def set_aim_position (screen_x screen_y : F32) (s : InputState) : InputState :=
  { s with aim_screen_x := screen_x, aim_screen_y := screen_y }

/-- The function `set_fire_button(pressed)`. -/
def set_fire_button (pressed : Bool) (s : InputState) : InputState :=
  { s with fire_pressed := pressed }

/-- The function `set_jump_button(pressed)`. -/
def set_jump_button (pressed : Bool) (s : InputState) : InputState :=
  { s with jump_pressed := pressed }

/-- The function `set_special_button(pressed)`. -/
def set_special_button (pressed : Bool) (s : InputState) : InputState :=
  { s with special_pressed := pressed }

/-- The function `get_input_state()`. -/
def get_input_state (s : InputState) : InputState := s

/-! ## The engine seen from this component -/

/-- Modelled from the spec: the locomotion states passed to `set_aistate` ("running
forward", "running backward", "stopped"); the engine header declaring them is not
among the sources. -/
inductive character_state where
  | stopped
  | running_forward
  | running_backward
deriving DecidableEq

/-- Modelled from the spec: the entity command interface (`set_aistate`, `try_move`,
`set_angle`, `fire`, `do_special`, `next_weapon`, `prev_weapon`), whose declaration in
`objects.h` is not among the sources.  A value is one call, with its arguments. -/
inductive Cmd where
  | set_aistate (st : character_state)
  | try_move (x y flag : Int)
  | set_angle (angle : Int)
  | fire
  | do_special
  | next_weapon
  | prev_weapon
deriving DecidableEq

/-- Modelled from the spec: the fields of the engine's `game_object` (`objects.h`, not
among the sources) that this component reads, the stored fixed-point position. -/
structure game_object where
  x : Int
  y : Int
deriving DecidableEq

/-- Modelled from the spec: the part of the engine's `view` (`view.h`, not among the
sources) that this component reads, the focused entity (nullable) and the world
offset returned by `xoff()` and `yoff()`.  The extent `suggest.cx1 .. cy2` is read
into `view_width` and `view_height`, which are never used. -/
structure view where
  focus : Option game_object
  xoff : Int
  yoff : Int
deriving DecidableEq

/-- Modelled from the spec: the part of the engine's `game` (`game.h`, not among the
sources) that this component reads, `first_view` (nullable). -/
structure game where
  first_view : Option view
deriving DecidableEq

/-- What the surroundings compute: libm's `atan2f`, the value a `float → int`
conversion yields where C++ leaves it undefined, and the effect of an entity
command on the entity (its position is read again after the movement commands). -/
structure Platform where
  atan2f : F32 → F32 → F32
  undef : F32 → Int
  exec : Cmd → game_object → game_object

/-- The commands issued so far in one call, and the entity as they left it. -/
structure Frame where
  cmds : List Cmd
  player : game_object

/-- Issue one command on the entity. -/
def Frame.call (P : Platform) (c : Cmd) (f : Frame) : Frame :=
  { cmds := f.cmds ++ [c], player := P.exec c f.player }

/-- The function `next_weapon()`: the commands it issues. -/
def next_weapon (the_game : Option game) : List Cmd :=
  match the_game with
  | none => []
  | some g =>
    match g.first_view with
    | none => []
    | some v =>
      match v.focus with
      | none => []
      | some _ => [Cmd.next_weapon]

/-- The function `prev_weapon()`: the commands it issues. -/
def prev_weapon (the_game : Option game) : List Cmd :=
  match the_game with
  | none => []
  | some g =>
    match g.first_view with
    | none => []
    | some v =>
      match v.focus with
      | none => []
      | some _ => [Cmd.prev_weapon]

/-! ## The per-frame `update` -/

/-- Lines 100-105: `if (std::abs(joy) < JOYSTICK_DEADZONE) joy = 0.0f;`. -/
def apply_deadzone (joy : F32) : F32 :=
  if F32.lt (F32.abs joy) JOYSTICK_DEADZONE then F32.lit 0 1 else joy

/-- Lines 107-126: horizontal movement. -/
def handle_horizontal (P : Platform) (joy_x : F32) (f : Frame) : Frame :=
  if F32.ne joy_x (F32.lit 0 1) then
    let direction : Int := if F32.gt joy_x (F32.lit 0 1) then 1 else -1
    let speed_multiplier := F32.abs joy_x
    let f1 :=
      if direction > 0 then f.call P (Cmd.set_aistate character_state.running_forward)
      else f.call P (Cmd.set_aistate character_state.running_backward)
    f1.call P (Cmd.try_move
      (wrap32 (direction * F32.toInt P.undef (F32.mul speed_multiplier (F32.ofInt 10)))) 0 0)
  else
    f.call P (Cmd.set_aistate character_state.stopped)

/-- Lines 128-135: vertical movement (jump/crouch). -/
def handle_vertical (P : Platform) (joy_y : F32) (jump_pressed : Bool) (f : Frame) : Frame :=
  if F32.lt joy_y JUMP_THRESHOLD || jump_pressed then
    f.call P (Cmd.try_move 0 (-1) 1)
  else if F32.gt joy_y CROUCH_THRESHOLD then
    f.call P (Cmd.try_move 0 1 0)
  else f

/-- Lines 156-158: radians from `atan2f` to whole degrees in the code's way. -/
def angle_degrees (P : Platform) (angle_rad : F32) : Int :=
  let angle_deg :=
    F32.toInt P.undef
      (F32.div (F32.mul angle_rad (F32.lit 180 1)) (F32.lit 314159265 100000000))
  if angle_deg < 0 then wrap32 (angle_deg + 360) else angle_deg

/-- Lines 141-158: the angle from the entity to the aim point, in whole degrees. -/
def aim_angle (P : Platform) (current_view : view) (s : InputState) (player : game_object) :
    Int :=
  let world_x := wrap32 (current_view.xoff + F32.toInt P.undef s.aim_screen_x)
  let world_y := wrap32 (current_view.yoff + F32.toInt P.undef s.aim_screen_y)
  let player_x := player.x >>> 16
  let player_y := player.y >>> 16
  let dx := wrap32 (world_x - player_x)
  let dy := wrap32 (world_y - player_y)
  let angle_rad := P.atan2f (F32.ofInt dy) (F32.ofInt dx)
  angle_degrees P angle_rad

/-- Lines 139-162: aiming. -/
def handle_aiming (P : Platform) (current_view : view) (s : InputState) (f : Frame) : Frame :=
  if F32.ne s.aim_screen_x (F32.lit 0 1) || F32.ne s.aim_screen_y (F32.lit 0 1) then
    f.call P (Cmd.set_angle (aim_angle P current_view s f.player))
  else f

/-- Lines 166-169: firing. -/
def handle_firing (P : Platform) (s : InputState) (f : Frame) : Frame :=
  if s.fire_pressed then f.call P Cmd.fire else f

/-- Lines 173-178: special ability; the latch is cleared after the command. -/
def handle_special (P : Platform) (s : InputState) (f : Frame) : Frame × InputState :=
  if s.special_pressed then
    (f.call P Cmd.do_special, { s with special_pressed := false })
  else (f, s)

/-- What one call of `update` did: the commands issued and the snapshot left. -/
structure UpdateResult where
  cmds : List Cmd
  state : InputState
deriving DecidableEq

/-- The function `update(current_view)`, with the global `the_game` as an argument. -/
def update (P : Platform) (the_game : Option game) (current_view : Option view)
    (s : InputState) : UpdateResult :=
  match current_view with
  | none => { cmds := [], state := s }
  | some v =>
    match v.focus with
    | none => { cmds := [], state := s }
    | some player =>
      match the_game with
      | none => { cmds := [], state := s }
      | some _ =>
        let joy_x := apply_deadzone s.joystick_x
        let joy_y := apply_deadzone s.joystick_y
        let f := handle_horizontal P joy_x { cmds := [], player := player }
        let f := handle_vertical P joy_y s.jump_pressed f
        let f := handle_aiming P v s f
        let f := handle_firing P s f
        let r := handle_special P s f
        { cmds := r.1.cmds, state := r.2 }

/-- Consecutive `update` calls, one per view, with no setter call in between: the
commands of each call, and the final snapshot. -/
def update_frames (P : Platform) (the_game : Option game) :
    List (Option view) → InputState → List (List Cmd) × InputState
  | [], s => ([], s)
  | v :: vs, s =>
    let r := update P the_game v s
    let rest := update_frames P the_game vs r.state
    (r.cmds :: rest.1, rest.2)

/-- A platform for evaluating examples: `atan2f` tabulated (correctly rounded) at
the eight compass directions of unit steps, conversions outside `int` yield
`INT_MIN`, commands leave the entity where it is. -/
def samplePlatform : Platform :=
  { atan2f := fun y x =>
      if y = F32.ofInt (-1) ∧ x = F32.ofInt (-1) then F32.fin true (2470649 * 2 ^ 129)
      else F32.lit 0 1
    undef := fun _ => -(2 ^ 31)
    exec := fun _ p => p }

/-- An engine instance for evaluating examples (its first view is not consulted by
`update`). -/
def sampleGame : game := { first_view := none }

/-- A view for evaluating examples: entity at the origin, no world offset. -/
def sampleView : view := { focus := some { x := 0, y := 0 }, xoff := 0, yoff := 0 }

/-! ## Vocabulary of the statements, and the formulas of the specification -/

/-- The entity as the movement commands of one call leave it. -/
def player_at_aim (P : Platform) (s : InputState) (player : game_object) : game_object :=
  (handle_vertical P (apply_deadzone s.joystick_y) s.jump_pressed
    (handle_horizontal P (apply_deadzone s.joystick_x) { cmds := [], player := player })).player

/-- A horizontal move command: `try_move` with vertical and jump arguments zero. -/
def Cmd.isHorizontalMove : Cmd → Bool
  | Cmd.try_move _ y flag => decide (y = 0 ∧ flag = 0)
  | _ => false

/-- The move argument of the specification, `sign(x) * floor(|x| * 10)`, with the
product taken exactly. -/
def move_spec : F32 → Int
  | F32.fin n k => F32.signed n (k * 10 / F32.unit)
  | _ => 0

/-- A `set_angle` command. -/
def Cmd.isSetAngle : Cmd → Bool
  | Cmd.set_angle _ => true
  | _ => false

/-- Truncation toward zero of a finite value: the `float → int` conversion where C++
defines it. -/
def F32.trunc : F32 → Int
  | F32.fin n k => F32.signed n (k / F32.unit)
  | _ => 0

/-- The quantity fits an `int`. -/
def InInt (i : Int) : Prop := -(2 ^ 31) ≤ i ∧ i < 2 ^ 31

instance (i : Int) : Decidable (InInt i) := by
  unfold InInt; infer_instance

/-- The `float → int` conversion of the value is defined. -/
def F32.IntConvertible : F32 → Prop
  | F32.fin n k => InInt (F32.signed n (k / F32.unit))
  | _ => False

instance (x : F32) : Decidable (F32.IntConvertible x) := by
  cases x <;> unfold F32.IntConvertible <;> infer_instance

/-- The conversions and the `int` arithmetic of the aim step are defined in C++: both
aim coordinates convert to `int`, and neither the sum with the view offset nor the
difference with the entity position overflows. -/
def AimDefined (v : view) (s : InputState) (q : game_object) : Prop :=
  F32.IntConvertible s.aim_screen_x ∧ F32.IntConvertible s.aim_screen_y ∧
  InInt (v.xoff + F32.trunc s.aim_screen_x) ∧
  InInt (v.yoff + F32.trunc s.aim_screen_y) ∧
  InInt (v.xoff + F32.trunc s.aim_screen_x - (q.x >>> 16)) ∧
  InInt (v.yoff + F32.trunc s.aim_screen_y - (q.y >>> 16))

instance (v : view) (s : InputState) (q : game_object) : Decidable (AimDefined v s q) := by
  unfold AimDefined; infer_instance

/-- The angle in binary32 terms: with `dx = xoff + trunc(aim_x) - (entity.x >> 16)` and
`dy` alike as plain integers, the truncation of the binary32 value
`atan2f(dy, dx) * 180.0f / 3.14159265f`, each operation rounded, plus 360 when
negative. -/
def angle_binary32 (atan2f : F32 → F32 → F32) (xoff yoff : Int) (entity : game_object)
    (aim_x aim_y : F32) : Int :=
  let dx := xoff + F32.trunc aim_x - (entity.x >>> 16)
  let dy := yoff + F32.trunc aim_y - (entity.y >>> 16)
  let raw := F32.trunc (F32.div (F32.mul (atan2f (F32.ofInt dy) (F32.ofInt dx))
    (F32.lit 180 1)) (F32.lit 314159265 100000000))
  if raw < 0 then raw + 360 else raw

/-- The integer degree value of the specification, in exact arithmetic: `d` is the
angle `atan2(dy, dx)` of the vector `(dx, dy)`, in degrees, truncated toward zero. -/
def ExactDegreeValue (dy dx d : Int) : Prop :=
  (0 ≤ Complex.arg ⟨(dx : ℝ), (dy : ℝ)⟩ * 180 / Real.pi →
    d = ⌊Complex.arg ⟨(dx : ℝ), (dy : ℝ)⟩ * 180 / Real.pi⌋) ∧
  (Complex.arg ⟨(dx : ℝ), (dy : ℝ)⟩ * 180 / Real.pi < 0 →
    d = ⌈Complex.arg ⟨(dx : ℝ), (dy : ℝ)⟩ * 180 / Real.pi⌉)

/-- A platform for evaluating the aim at `(289, 1639)`: `atan2f(1639, 289)` is the
binary32 value nearest the exact angle `1.39626335507...`, that is
`5856353 / 2^22`; conversions outside `int` yield `INT_MIN`, commands leave the
entity where it is. -/
def nearestPlatform : Platform :=
  { atan2f := fun y x =>
      if y = F32.ofInt 1639 ∧ x = F32.ofInt 289 then F32.fin false (5856353 * 2 ^ 127)
      else F32.lit 0 1
    undef := fun _ => -(2 ^ 31)
    exec := fun _ p => p }

/-- One call of a setter, with its arguments. -/
inductive SetterCall where
  | movement (x y : F32)
  | aim (screen_x screen_y : F32)
  | fire (pressed : Bool)
  | jump (pressed : Bool)
  | special (pressed : Bool)

/-- The effect of one setter call on the snapshot. -/
def SetterCall.apply : SetterCall → InputState → InputState
  | SetterCall.movement x y, s => set_movement_input x y s
  | SetterCall.aim sx sy, s => set_aim_position sx sy s
  | SetterCall.fire b, s => set_fire_button b s
  | SetterCall.jump b, s => set_jump_button b s
  | SetterCall.special b, s => set_special_button b s

/-- A sequence of setter calls, the head of the list first. -/
def run_setters : List SetterCall → InputState → InputState
  | [], s => s
  | c :: cs, s => run_setters cs (SetterCall.apply c s)

/-- The arguments of the call if it is `set_movement_input`. -/
def SetterCall.movementArgs : SetterCall → Option (F32 × F32)
  | SetterCall.movement x y => some (x, y)
  | _ => none

/-- The arguments of the call if it is `set_aim_position`. -/
def SetterCall.aimArgs : SetterCall → Option (F32 × F32)
  | SetterCall.aim sx sy => some (sx, sy)
  | _ => none

/-- The argument of the call if it is `set_fire_button`. -/
def SetterCall.fireArg : SetterCall → Option Bool
  | SetterCall.fire b => some b
  | _ => none

/-- The argument of the call if it is `set_jump_button`. -/
def SetterCall.jumpArg : SetterCall → Option Bool
  | SetterCall.jump b => some b
  | _ => none

/-- The argument of the call if it is `set_special_button`. -/
def SetterCall.specialArg : SetterCall → Option Bool
  | SetterCall.special b => some b
  | _ => none

/-- The last call of a sequence (head first) that `pick` selects, if any. -/
def last_call {α : Type} (pick : SetterCall → Option α) : List SetterCall → Option α
  | [] => none
  | c :: cs =>
    match last_call pick cs with
    | some v => some v
    | none => pick c

/-- One call that can touch the snapshot: a setter, `clear_input`, `shutdown`, or
`update` on some view with the engine in some state. -/
inductive Op where
  | setter (c : SetterCall)
  | clear_input
  | shutdown
  | update (P : Platform) (the_game : Option game) (current_view : Option view)

/-- The effect of one call on the snapshot. -/
def Op.apply : Op → InputState → InputState
  | Op.setter c, s => SetterCall.apply c s
  | Op.clear_input, s => mobile_input.clear_input s
  | Op.shutdown, s => mobile_input.shutdown s
  | Op.update P g v, s => (mobile_input.update P g v s).state

/-- A sequence of calls, the head of the list first. -/
def run_ops : List Op → InputState → InputState
  | [], s => s
  | o :: os, s => run_ops os (Op.apply o s)

/-- The value lies in `[-1, 1]` (so it is not NaN). -/
def InUnitRange (x : F32) : Prop :=
  F32.le (F32.neg (F32.lit 1 1)) x = true ∧ F32.le x (F32.lit 1 1) = true

instance (x : F32) : Decidable (InUnitRange x) := by
  unfold InUnitRange; infer_instance

/-- A `set_aistate` command. -/
def Cmd.isSetAistate : Cmd → Bool
  | Cmd.set_aistate _ => true
  | _ => false

/-- The clamp of the specification: `-1` if `v < -1`, `1` if `v > 1`, `v` otherwise. -/
def clamp_spec (v : F32) : F32 :=
  if F32.lt v (F32.neg (F32.lit 1 1)) then F32.neg (F32.lit 1 1)
  else if F32.gt v (F32.lit 1 1) then F32.lit 1 1
  else v

/-! ## Values of the literals -/

set_option maxRecDepth 100000 in
theorem lit_zero : F32.lit 0 1 = F32.fin false 0 := by decide

set_option maxRecDepth 100000 in
theorem lit_one : F32.lit 1 1 = F32.fin false (2 ^ 149) := by decide

set_option maxRecDepth 100000 in
theorem lit_half : F32.lit 5 10 = F32.fin false (2 ^ 148) := by decide

set_option maxRecDepth 100000 in
theorem lit_tenth : F32.lit 1 10 = F32.fin false (13421773 * 2 ^ 122) := by decide

set_option maxRecDepth 100000 in
theorem lit_180 : F32.lit 180 1 = F32.fin false (180 * 2 ^ 149) := by decide

set_option maxRecDepth 100000 in
theorem lit_pi : F32.lit 314159265 100000000 = F32.fin false (13176795 * 2 ^ 127) := by decide

set_option maxRecDepth 100000 in
theorem ofInt_ten : F32.ofInt 10 = F32.fin false (10 * 2 ^ 149) := by decide

/-! ## Rounding stays on its side of a representable bound -/

theorem dropBits_spec (fuel : Nat) : ∀ q : Nat, q < 2 ^ (24 + fuel) →
    q < 2 ^ (24 + F32.dropBits fuel q) ∧ (0 < F32.dropBits fuel q → 2 ^ (23 + F32.dropBits fuel q) ≤ q) := by
  induction fuel with
  | zero => intro q h; simpa [F32.dropBits] using h
  | succ f ih =>
    intro q h
    unfold F32.dropBits
    split_ifs with hq
    · simpa using hq
    · have h2 : q / 2 < 2 ^ (24 + f) := by
        rw [Nat.div_lt_iff_lt_mul (by decide)]
        calc q < 2 ^ (24 + (f + 1)) := h
          _ = 2 ^ (24 + f) * 2 := by ring
      obtain ⟨a, b⟩ := ih (q / 2) h2
      constructor
      · have : q < 2 ^ (24 + F32.dropBits f (q / 2)) * 2 := by omega
        calc q < 2 ^ (24 + F32.dropBits f (q / 2)) * 2 := this
          _ = 2 ^ (24 + (F32.dropBits f (q / 2) + 1)) := by ring
      · intro _
        by_cases ht : 0 < F32.dropBits f (q / 2)
        · have := b ht
          calc 2 ^ (23 + (F32.dropBits f (q / 2) + 1)) = 2 ^ (23 + F32.dropBits f (q / 2)) * 2 := by ring
            _ ≤ q := by omega
        · have h0 : F32.dropBits f (q / 2) = 0 := by omega
          rw [h0]
          omega

theorem excessBits_spec (q : Nat) :
    q < 2 ^ (24 + F32.excessBits q) ∧ (0 < F32.excessBits q → 2 ^ (23 + F32.excessBits q) ≤ q) := by
  apply dropBits_spec
  calc q < 2 ^ q := Nat.lt_two_pow q
    _ ≤ 2 ^ (24 + q) := Nat.pow_le_pow_right (by decide) (by omega)

theorem excessBits_le (q m e : Nat) (hm : m < 2 ^ 24) (hq : q ≤ m * 2 ^ e) :
    F32.excessBits q ≤ e := by
  by_contra hc
  have hs : e + 1 ≤ F32.excessBits q := by omega
  have h1 := (excessBits_spec q).2 (by omega)
  have h2 : 2 ^ (24 + e) ≤ 2 ^ (23 + F32.excessBits q) := Nat.pow_le_pow_right (by decide) (by omega)
  have h3 : m * 2 ^ e < 2 ^ 24 * 2 ^ e := Nat.mul_lt_mul_of_pos_right hm (Nat.two_pow_pos _)
  rw [← pow_add] at h3
  omega

theorem roundUnits_le (n d m e : Nat) (hd : 0 < d) (hm : m < 2 ^ 24) (h : n ≤ m * 2 ^ e * d) :
    F32.roundUnits n d ≤ m * 2 ^ e := by
  have hq : n / d ≤ m * 2 ^ e := Nat.div_le_of_le_mul (by rw [Nat.mul_comm]; exact h)
  have hs := excessBits_le _ m e hm hq
  obtain ⟨t, rfl⟩ := Nat.exists_eq_add_of_le hs
  unfold F32.roundUnits
  simp only
  generalize F32.excessBits (n / d) = s at *
  have hu : 0 < d * 2 ^ s := Nat.mul_pos hd (Nat.two_pow_pos _)
  have hn : n ≤ (m * 2 ^ t) * (d * 2 ^ s) := by
    calc n ≤ m * 2 ^ (s + t) * d := h
      _ = (m * 2 ^ t) * (d * 2 ^ s) := by ring
  have hm0 : n / (d * 2 ^ s) ≤ m * 2 ^ t := Nat.div_le_of_le_mul (by rw [Nat.mul_comm]; exact hn)
  have hc : m * 2 ^ (s + t) = (m * 2 ^ t) * 2 ^ s := by ring
  rw [hc]
  split_ifs with hcond
  · apply Nat.mul_le_mul_right
    by_contra hlt
    have heq : n / (d * 2 ^ s) = m * 2 ^ t := by omega
    have hdm := Nat.div_add_mod n (d * 2 ^ s)
    rw [heq] at hdm
    have hr : n % (d * 2 ^ s) = 0 := by
      have : d * 2 ^ s * (m * 2 ^ t) = (m * 2 ^ t) * (d * 2 ^ s) := by ring
      omega
    rw [hr] at hcond
    omega
  · exact Nat.mul_le_mul_right _ hm0

theorem roundUnits_ge (n d m e : Nat) (hd : 0 < d) (hm : m < 2 ^ 24) (h : m * 2 ^ e * d ≤ n) :
    m * 2 ^ e ≤ F32.roundUnits n d := by
  have hq : m * 2 ^ e ≤ n / d := (Nat.le_div_iff_mul_le hd).mpr h
  have hlow : n / (d * 2 ^ F32.excessBits (n / d)) * 2 ^ F32.excessBits (n / d) ≤ F32.roundUnits n d := by
    unfold F32.roundUnits
    simp only
    split_ifs
    · exact Nat.mul_le_mul_right _ (Nat.le_succ _)
    · exact le_refl _
  refine le_trans ?_ hlow
  have hspec := excessBits_spec (n / d)
  generalize F32.excessBits (n / d) = s at *
  have hu : 0 < d * 2 ^ s := Nat.mul_pos hd (Nat.two_pow_pos _)
  by_cases hs : s ≤ e
  · obtain ⟨t, rfl⟩ := Nat.exists_eq_add_of_le hs
    have hc : m * 2 ^ (s + t) = (m * 2 ^ t) * 2 ^ s := by ring
    rw [hc]
    apply Nat.mul_le_mul_right
    rw [Nat.le_div_iff_mul_le hu]
    calc m * 2 ^ t * (d * 2 ^ s) = m * 2 ^ (s + t) * d := by ring
      _ ≤ n := h
  · have h1 := hspec.2 (by omega)
    have h2 : 2 ^ 23 ≤ n / (d * 2 ^ s) := by
      rw [← Nat.div_div_eq_div_mul, Nat.le_div_iff_mul_le (Nat.two_pow_pos _), ← pow_add]
      exact h1
    have h3 : m * 2 ^ e < 2 ^ 24 * 2 ^ e := Nat.mul_lt_mul_of_pos_right hm (Nat.two_pow_pos _)
    rw [← pow_add] at h3
    have h4 : 2 ^ (24 + e) ≤ 2 ^ (23 + s) := Nat.pow_le_pow_right (by decide) (by omega)
    calc m * 2 ^ e ≤ 2 ^ (23 + s) := by omega
      _ = 2 ^ 23 * 2 ^ s := by ring
       _ ≤ n / (d * 2 ^ s) * 2 ^ s := Nat.mul_le_mul_right _ h2

/-! ## The shape of one `update` call -/

theorem handle_horizontal_cmds (P : Platform) (joy_x : F32) (f : Frame) :
    (handle_horizontal P joy_x f).cmds = f.cmds ++
      (if F32.ne joy_x (F32.lit 0 1) then
        [Cmd.set_aistate (if F32.gt joy_x (F32.lit 0 1) then character_state.running_forward
            else character_state.running_backward),
         Cmd.try_move (wrap32 ((if F32.gt joy_x (F32.lit 0 1) then 1 else -1) *
            F32.toInt P.undef (F32.mul (F32.abs joy_x) (F32.ofInt 10)))) 0 0]
       else [Cmd.set_aistate character_state.stopped]) := by
  unfold handle_horizontal
  split_ifs <;> simp_all [Frame.call]

theorem handle_vertical_cmds (P : Platform) (joy_y : F32) (jump_pressed : Bool) (f : Frame) :
    (handle_vertical P joy_y jump_pressed f).cmds = f.cmds ++
      (if F32.lt joy_y JUMP_THRESHOLD || jump_pressed then [Cmd.try_move 0 (-1) 1]
       else if F32.gt joy_y CROUCH_THRESHOLD then [Cmd.try_move 0 1 0]
       else []) := by
  unfold handle_vertical
  split_ifs <;> simp [Frame.call]

theorem handle_aiming_cmds (P : Platform) (v : view) (s : InputState) (f : Frame) :
    (handle_aiming P v s f).cmds = f.cmds ++
      (if F32.ne s.aim_screen_x (F32.lit 0 1) || F32.ne s.aim_screen_y (F32.lit 0 1)
       then [Cmd.set_angle (aim_angle P v s f.player)] else []) := by
  unfold handle_aiming
  split_ifs <;> simp [Frame.call]

theorem handle_firing_cmds (P : Platform) (s : InputState) (f : Frame) :
    (handle_firing P s f).cmds = f.cmds ++ (if s.fire_pressed then [Cmd.fire] else []) := by
  unfold handle_firing
  split_ifs <;> simp [Frame.call]

theorem handle_special_cmds (P : Platform) (s : InputState) (f : Frame) :
    (handle_special P s f).1.cmds
      = f.cmds ++ (if s.special_pressed then [Cmd.do_special] else []) := by
  unfold handle_special
  split_ifs <;> simp [Frame.call]

theorem handle_special_state (P : Platform) (s : InputState) (f : Frame) :
    (handle_special P s f).2 = { s with special_pressed := false } := by
  unfold handle_special
  split_ifs with h
  · rfl
  · cases s; simp_all

theorem update_focused_cmds (P : Platform) (g : game) (v : view) (p : game_object)
    (s : InputState) (h : v.focus = some p) :
    (update P (some g) (some v) s).cmds =
      (handle_horizontal P (apply_deadzone s.joystick_x) { cmds := [], player := p }).cmds ++
      (if F32.lt (apply_deadzone s.joystick_y) JUMP_THRESHOLD || s.jump_pressed
        then [Cmd.try_move 0 (-1) 1]
       else if F32.gt (apply_deadzone s.joystick_y) CROUCH_THRESHOLD then [Cmd.try_move 0 1 0]
       else []) ++
      (if F32.ne s.aim_screen_x (F32.lit 0 1) || F32.ne s.aim_screen_y (F32.lit 0 1)
       then [Cmd.set_angle (aim_angle P v s (player_at_aim P s p))] else []) ++
      (if s.fire_pressed then [Cmd.fire] else []) ++
      (if s.special_pressed then [Cmd.do_special] else []) := by
  simp only [update, h, handle_special_cmds, handle_firing_cmds, handle_aiming_cmds,
    handle_vertical_cmds, player_at_aim]

theorem update_focused_state (P : Platform) (g : game) (v : view) (p : game_object)
    (s : InputState) (h : v.focus = some p) :
    (update P (some g) (some v) s).state = { s with special_pressed := false } := by
  simp only [update, h, handle_special_state]

theorem update_state (P : Platform) (g : Option game) (v : Option view) (s : InputState) :
    (update P g v s).state = s ∨ (update P g v s).state = { s with special_pressed := false } := by
  unfold update
  split
  · exact Or.inl rfl
  · split
    · exact Or.inl rfl
    · split
      · exact Or.inl rfl
      · exact Or.inr (handle_special_state _ _ _)

theorem update_state_uniform (P : Platform) (g : Option game) (v : Option view) :
    (∀ s, (update P g v s).state = s) ∨
    (∀ s, (update P g v s).state = { s with special_pressed := false }) := by
  cases v with
  | none => exact Or.inl (fun _ => rfl)
  | some w =>
    cases hw : w.focus with
    | none => exact Or.inl (fun s => by simp [update, hw])
    | some p =>
      cases g with
      | none => exact Or.inl (fun s => by simp [update, hw])
      | some e => exact Or.inr (fun s => update_focused_state P e w p s hw)

/-! ## Setters -/

theorem clamp_symmetric (c : Nat) (hc : 0 < c) (x : F32) :
    clamp x (F32.fin true c) (F32.fin false c)
      = if x = F32.nan then F32.fin false c
        else if F32.lt x (F32.fin true c) then F32.fin true c
        else if F32.gt x (F32.fin false c) then F32.fin false c
        else x := by
  cases x with
  | nan => simp [clamp, std_min, std_max, F32.lt, F32.signed]; omega
  | inf n => cases n <;> simp [clamp, std_min, std_max, F32.lt, F32.gt, F32.signed]; omega
  | fin n k =>
    unfold clamp std_max std_min
    cases n <;> split_ifs <;> simp_all [F32.lt, F32.gt, F32.signed] <;> omega

theorem clamp_unit_range (x : F32) :
    clamp x (F32.neg (F32.lit 1 1)) (F32.lit 1 1)
      = if x = F32.nan then F32.lit 1 1 else clamp_spec x := by
  rw [clamp_spec, lit_one]
  exact clamp_symmetric (2 ^ 149) (by decide) x

/-- C1 (as amended): after `set_movement_input(x, y)` each joystick axis holds the
clamp of its argument, `-1` below `-1`, `1` above `1`, the argument otherwise,
except that a NaN argument is stored as `1`. -/
theorem set_movement_input_stores_clamp (x y : F32) (s : InputState) :
    (set_movement_input x y s).joystick_x
        = (if x = F32.nan then F32.lit 1 1 else clamp_spec x) ∧
    (set_movement_input x y s).joystick_y
        = (if y = F32.nan then F32.lit 1 1 else clamp_spec y) := by
  simp only [set_movement_input]
  exact ⟨clamp_unit_range x, clamp_unit_range y⟩

/-- C1 (as stated) fails at NaN: the clamp of the specification leaves NaN as it
is, `set_movement_input(NaN, NaN)` stores `1.0` in both axes. -/
theorem set_movement_input_nan :
    clamp_spec F32.nan = F32.nan ∧
    (set_movement_input F32.nan F32.nan InputState.default).joystick_x = F32.lit 1 1 ∧
    (set_movement_input F32.nan F32.nan InputState.default).joystick_y = F32.lit 1 1 ∧
    (set_movement_input F32.nan F32.nan InputState.default).joystick_x ≠ clamp_spec F32.nan ∧
    (set_movement_input F32.nan F32.nan InputState.default).joystick_y ≠ clamp_spec F32.nan := by
  simp only [set_movement_input, clamp_unit_range, clamp_spec, lit_one]
  decide

/-! ## Reset operations -/

/-- C8: from every snapshot `clear_input` yields the default snapshot (joystick and
aim coordinates `+0.0`, the three buttons released); doing it twice is the same as
once; `initialize` and `shutdown` yield the same default snapshot. -/
theorem clear_input_idempotent_total (s : InputState) :
    clear_input s =
      { joystick_x := F32.fin false 0, joystick_y := F32.fin false 0,
        aim_screen_x := F32.fin false 0, aim_screen_y := F32.fin false 0,
        fire_pressed := false, jump_pressed := false, special_pressed := false } ∧
    clear_input (clear_input s) = clear_input s ∧
    init_input s = clear_input s ∧
    shutdown s = clear_input s := by
  refine ⟨?_, rfl, rfl, rfl⟩
  simp only [clear_input, InputState.default, lit_zero]

/-! ## Absence of engine, view or focus -/

/-- C3: `update` with a null view, with a view whose focus is null, or with no
engine instance issues no command and returns the snapshot unchanged; `next_weapon`
and `prev_weapon` issue no command when the engine, its first view or that view's
focus is missing. -/
theorem absent_engine_view_focus_noop (P : Platform) (g : Option game) (v : Option view)
    (xoff yoff : Int) (s : InputState) :
    update P g none s = { cmds := [], state := s } ∧
    update P g (some { focus := none, xoff := xoff, yoff := yoff }) s
      = { cmds := [], state := s } ∧
    update P none v s = { cmds := [], state := s } ∧
    next_weapon none = [] ∧
    next_weapon (some { first_view := none }) = [] ∧
    next_weapon (some { first_view := some { focus := none, xoff := xoff, yoff := yoff } })
      = [] ∧
    prev_weapon none = [] ∧
    prev_weapon (some { first_view := none }) = [] ∧
    prev_weapon (some { first_view := some { focus := none, xoff := xoff, yoff := yoff } })
      = [] := by
  refine ⟨rfl, rfl, ?_, rfl, rfl, rfl, rfl, rfl, rfl⟩
  unfold update
  split
  · rfl
  · split
    · rfl
    · rfl

/-! ## Frame of `update` -/

/-- C9: `update` leaves both joystick axes, both aim coordinates, the fire latch and
the jump latch as they were; the special latch either stays as it was or goes from
true to false. -/
theorem update_writes_only_special (P : Platform) (g : Option game) (v : Option view) (s : InputState) :
    (update P g v s).state.joystick_x = s.joystick_x ∧
    (update P g v s).state.joystick_y = s.joystick_y ∧
    (update P g v s).state.aim_screen_x = s.aim_screen_x ∧
    (update P g v s).state.aim_screen_y = s.aim_screen_y ∧
    (update P g v s).state.fire_pressed = s.fire_pressed ∧
    (update P g v s).state.jump_pressed = s.jump_pressed ∧
    ((update P g v s).state.special_pressed = s.special_pressed ∨
      (s.special_pressed = true ∧ (update P g v s).state.special_pressed = false)) := by
  rcases update_state P g v s with h | h <;> rw [h]
  · simp
  · cases hs : s.special_pressed <;> simp

/-! ## Latches: special ability and fire -/

theorem handle_horizontal_shape (P : Platform) (joy_x : F32) (f : Frame) :
    ∃ (st : character_state) (d : Int),
      (handle_horizontal P joy_x f).cmds = f.cmds ++ [Cmd.set_aistate st, Cmd.try_move d 0 0] ∨
      (handle_horizontal P joy_x f).cmds = f.cmds ++ [Cmd.set_aistate st] := by
  rw [handle_horizontal_cmds]
  by_cases h : F32.ne joy_x (F32.lit 0 1) = true
  · rw [if_pos h]
    exact ⟨_, _, Or.inl rfl⟩
  · rw [if_neg h]
    exact ⟨_, 0, Or.inr rfl⟩

theorem count_do_special_update (P : Platform) (g : game) (v : view) (p : game_object)
    (s : InputState) (h : v.focus = some p) :
    List.count Cmd.do_special (update P (some g) (some v) s).cmds
      = if s.special_pressed then 1 else 0 := by
  rw [update_focused_cmds P g v p s h, handle_horizontal_cmds]
  simp only [List.count_append, List.nil_append]
  split_ifs <;> simp

theorem count_fire_update (P : Platform) (g : game) (v : view) (p : game_object)
    (s : InputState) (h : v.focus = some p) :
    List.count Cmd.fire (update P (some g) (some v) s).cmds
      = if s.fire_pressed then 1 else 0 := by
  rw [update_focused_cmds P g v p s h, handle_horizontal_cmds]
  simp only [List.count_append, List.nil_append]
  split_ifs <;> simp

theorem update_frames_released (P : Platform) (g : game) (vs : List view)
    (hf : ∀ w ∈ vs, w.focus ≠ none) (s : InputState) (hs : s.special_pressed = false) :
    (update_frames P (some g) (vs.map some) s).1.map (List.count Cmd.do_special)
        = List.replicate vs.length 0 ∧
    (update_frames P (some g) (vs.map some) s).2.special_pressed = false := by
  induction vs generalizing s with
  | nil => exact ⟨rfl, hs⟩
  | cons w ws ih =>
    obtain ⟨p, hp⟩ := Option.ne_none_iff_exists'.mp (hf w (List.mem_cons_self w ws))
    have hst := update_focused_state P g w p s hp
    have hc := count_do_special_update P g w p s hp
    have ih' := ih (fun u hu => hf u (List.mem_cons_of_mem w hu))
      (update P (some g) (some w) s).state (by rw [hst])
    simp only [List.map_cons, update_frames, List.length_cons, List.replicate_succ]
    refine ⟨?_, ih'.2⟩
    rw [ih'.1, hc, hs]
    rfl

/-- C2: with the special latch set, `update` invoked on `N >= 1` views that each
have a focused entity (engine present, no setter call in between) issues
`do_special` once in the first call and in no later call, and leaves the latch
clear. -/
theorem special_one_shot (P : Platform) (g : game) (v : view) (vs : List view)
    (s : InputState) (hs : s.special_pressed = true)
    (hf : ∀ w ∈ v :: vs, w.focus ≠ none) :
    (update_frames P (some g) ((v :: vs).map some) s).1.map (List.count Cmd.do_special)
        = 1 :: List.replicate vs.length 0 ∧
    (update_frames P (some g) ((v :: vs).map some) s).2.special_pressed = false := by
  obtain ⟨p, hp⟩ := Option.ne_none_iff_exists'.mp (hf v (List.mem_cons_self v vs))
  have hst := update_focused_state P g v p s hp
  have hc := count_do_special_update P g v p s hp
  have hrest := update_frames_released P g vs (fun u hu => hf u (List.mem_cons_of_mem v hu))
    (update P (some g) (some v) s).state (by rw [hst])
  simp only [List.map_cons, update_frames]
  refine ⟨?_, hrest.2⟩
  rw [hrest.1, hc, hs]
  rfl

/-- Witness for C2: three consecutive calls with the special latch set. -/
theorem special_one_shot_witness :
    ({ InputState.default with special_pressed := true } : InputState).special_pressed = true ∧
    (∀ w ∈ [sampleView, sampleView, sampleView], w.focus ≠ none) ∧
    (update_frames samplePlatform (some sampleGame)
        ([sampleView, sampleView, sampleView].map some)
        { InputState.default with special_pressed := true }).1.map (List.count Cmd.do_special)
      = [1, 0, 0] ∧
    (update_frames samplePlatform (some sampleGame)
        ([sampleView, sampleView, sampleView].map some)
        { InputState.default with special_pressed := true }).2.special_pressed = false :=
  ⟨rfl, by decide,
    special_one_shot samplePlatform sampleGame sampleView [sampleView, sampleView]
      { InputState.default with special_pressed := true } rfl (by decide)⟩

theorem update_frames_fire (P : Platform) (g : game) (vs : List view)
    (hf : ∀ w ∈ vs, w.focus ≠ none) (s : InputState) (hs : s.fire_pressed = true) :
    (update_frames P (some g) (vs.map some) s).1.map (List.count Cmd.fire)
        = List.replicate vs.length 1 ∧
    (update_frames P (some g) (vs.map some) s).2.fire_pressed = true := by
  induction vs generalizing s with
  | nil => exact ⟨rfl, hs⟩
  | cons w ws ih =>
    obtain ⟨p, hp⟩ := Option.ne_none_iff_exists'.mp (hf w (List.mem_cons_self w ws))
    have hst := update_focused_state P g w p s hp
    have hc := count_fire_update P g w p s hp
    have ih' := ih (fun u hu => hf u (List.mem_cons_of_mem w hu))
      (update P (some g) (some w) s).state (by rw [hst]; exact hs)
    simp only [List.map_cons, update_frames, List.length_cons, List.replicate_succ]
    refine ⟨?_, ih'.2⟩
    rw [ih'.1, hc, hs]
    rfl

theorem update_keeps_fire (P : Platform) (g : Option game) (v : Option view) (s : InputState) :
    (update P g v s).state.fire_pressed = s.fire_pressed := by
  rcases update_state P g v s with h | h <;> rw [h]

/-- C10 (as amended): with the engine present, one `update` on a view with a focused
entity issues `fire` once if the fire latch is set and not at all otherwise, and leaves the latch as it was; with
the latch set, each of `N` consecutive calls issues `fire` once, `N` in all. -/
theorem continuous_fire (P : Platform) (g : game) (v : view) (vs : List view) (s : InputState)
    (hv : v.focus ≠ none) (hf : ∀ w ∈ vs, w.focus ≠ none) :
    List.count Cmd.fire (update P (some g) (some v) s).cmds
        = (if s.fire_pressed then 1 else 0) ∧
    (update P (some g) (some v) s).state.fire_pressed = s.fire_pressed ∧
    (s.fire_pressed = true →
      (update_frames P (some g) (vs.map some) s).1.map (List.count Cmd.fire)
          = List.replicate vs.length 1 ∧
      ((update_frames P (some g) (vs.map some) s).1.map (List.count Cmd.fire)).sum
          = vs.length ∧
      (update_frames P (some g) (vs.map some) s).2.fire_pressed = true) := by
  obtain ⟨p, hp⟩ := Option.ne_none_iff_exists'.mp hv
  refine ⟨count_fire_update P g v p s hp, update_keeps_fire P (some g) (some v) s, fun hs => ?_⟩
  have h := update_frames_fire P g vs hf s hs
  refine ⟨h.1, ?_, h.2⟩
  rw [h.1]
  simp

/-- Witness for C10: three consecutive calls with the fire latch set. -/
theorem continuous_fire_witness :
    sampleView.focus ≠ none ∧
    (∀ w ∈ [sampleView, sampleView, sampleView], w.focus ≠ none) ∧
    List.count Cmd.fire (update samplePlatform (some sampleGame) (some sampleView)
        { InputState.default with fire_pressed := true }).cmds = 1 ∧
    ((update_frames samplePlatform (some sampleGame)
        ([sampleView, sampleView, sampleView].map some)
        { InputState.default with fire_pressed := true }).1.map (List.count Cmd.fire)).sum
      = 3 :=
  have h := continuous_fire samplePlatform sampleGame sampleView
    [sampleView, sampleView, sampleView] { InputState.default with fire_pressed := true }
    (by decide) (by decide)
  ⟨by decide, by decide, h.1, (h.2.2 rfl).2.1⟩

/-! ## Deadzone -/

theorem small_not_beyond (d c : Nat) (hdc : d ≤ c) (y : F32)
    (h : F32.lt (F32.abs y) (F32.fin false d) = true) :
    F32.lt y (F32.fin true c) = false ∧ F32.gt y (F32.fin false c) = false := by
  cases y with
  | nan => simp [F32.abs, F32.lt] at h
  | inf n => simp [F32.abs, F32.lt] at h
  | fin n k =>
    cases n <;> simp_all [F32.abs, F32.lt, F32.gt, F32.signed] <;> omega

theorem jump_threshold_eq : JUMP_THRESHOLD = F32.fin true (2 ^ 148) := by
  rw [JUMP_THRESHOLD, lit_half]; rfl

theorem crouch_threshold_eq : CROUCH_THRESHOLD = F32.fin false (2 ^ 148) := by
  rw [CROUCH_THRESHOLD, lit_half]

theorem deadzone_eq : JOYSTICK_DEADZONE = F32.fin false (13421773 * 2 ^ 122) := by
  rw [JOYSTICK_DEADZONE, lit_tenth]

theorem apply_deadzone_small (v : F32) (h : F32.lt (F32.abs v) JOYSTICK_DEADZONE = true) :
    apply_deadzone v = F32.lit 0 1 := by
  simp [apply_deadzone, h]

theorem apply_deadzone_zero : apply_deadzone (F32.lit 0 1) = F32.lit 0 1 := by
  have h : F32.lt (F32.abs (F32.lit 0 1)) JOYSTICK_DEADZONE = true := by
    rw [deadzone_eq, lit_zero]; decide
  exact apply_deadzone_small _ h

theorem deadzone_keeps_jump (y : F32) :
    F32.lt (apply_deadzone y) JUMP_THRESHOLD = F32.lt y JUMP_THRESHOLD := by
  unfold apply_deadzone
  split_ifs with h
  · rw [deadzone_eq] at h
    rw [jump_threshold_eq, (small_not_beyond _ (2 ^ 148) (by decide) y h).1, lit_zero]
    decide
  · rfl

theorem deadzone_keeps_crouch (y : F32) :
    F32.gt (apply_deadzone y) CROUCH_THRESHOLD = F32.gt y CROUCH_THRESHOLD := by
  unfold apply_deadzone
  split_ifs with h
  · rw [deadzone_eq] at h
    rw [crouch_threshold_eq, (small_not_beyond _ (2 ^ 148) (by decide) y h).2, lit_zero]
    decide
  · rfl

theorem update_cmds_congr (P : Platform) (g : Option game) (v : Option view)
    (s t : InputState)
    (hx : apply_deadzone s.joystick_x = apply_deadzone t.joystick_x)
    (hy : apply_deadzone s.joystick_y = apply_deadzone t.joystick_y)
    (hax : s.aim_screen_x = t.aim_screen_x) (hay : s.aim_screen_y = t.aim_screen_y)
    (hf : s.fire_pressed = t.fire_pressed) (hj : s.jump_pressed = t.jump_pressed)
    (hs : s.special_pressed = t.special_pressed) :
    (update P g v s).cmds = (update P g v t).cmds := by
  cases v with
  | none => rfl
  | some w =>
    cases hw : w.focus with
    | none => simp [update, hw]
    | some p =>
      cases g with
      | none => simp [update, hw]
      | some e =>
        rw [update_focused_cmds P e w p s hw, update_focused_cmds P e w p t hw]
        simp only [player_at_aim, aim_angle, hx, hy, hax, hay, hf, hj, hs]

/-- C4: when `|v| < JOYSTICK_DEADZONE` (the binary32 value of `0.1`; no binary32
value lies between `0.1` and it), `update` on a snapshot with `joystick_x = v` issues
the same sequence of commands, and leaves the same aim coordinates and buttons, as
on the snapshot with `joystick_x = 0`; the same for `joystick_y`, whatever the
other axis holds. -/
theorem deadzone_as_zero (P : Platform) (g : Option game) (w : Option view) (s : InputState)
    (v : F32) (h : F32.lt (F32.abs v) JOYSTICK_DEADZONE = true) :
    ((update P g w { s with joystick_x := v }).cmds
        = (update P g w { s with joystick_x := F32.lit 0 1 }).cmds ∧
      (update P g w { s with joystick_x := v }).state.aim_screen_x
        = (update P g w { s with joystick_x := F32.lit 0 1 }).state.aim_screen_x ∧
      (update P g w { s with joystick_x := v }).state.aim_screen_y
        = (update P g w { s with joystick_x := F32.lit 0 1 }).state.aim_screen_y ∧
      (update P g w { s with joystick_x := v }).state.fire_pressed
        = (update P g w { s with joystick_x := F32.lit 0 1 }).state.fire_pressed ∧
      (update P g w { s with joystick_x := v }).state.jump_pressed
        = (update P g w { s with joystick_x := F32.lit 0 1 }).state.jump_pressed ∧
      (update P g w { s with joystick_x := v }).state.special_pressed
        = (update P g w { s with joystick_x := F32.lit 0 1 }).state.special_pressed) ∧
    ((update P g w { s with joystick_y := v }).cmds
        = (update P g w { s with joystick_y := F32.lit 0 1 }).cmds ∧
      (update P g w { s with joystick_y := v }).state.aim_screen_x
        = (update P g w { s with joystick_y := F32.lit 0 1 }).state.aim_screen_x ∧
      (update P g w { s with joystick_y := v }).state.aim_screen_y
        = (update P g w { s with joystick_y := F32.lit 0 1 }).state.aim_screen_y ∧
      (update P g w { s with joystick_y := v }).state.fire_pressed
        = (update P g w { s with joystick_y := F32.lit 0 1 }).state.fire_pressed ∧
      (update P g w { s with joystick_y := v }).state.jump_pressed
        = (update P g w { s with joystick_y := F32.lit 0 1 }).state.jump_pressed ∧
      (update P g w { s with joystick_y := v }).state.special_pressed
        = (update P g w { s with joystick_y := F32.lit 0 1 }).state.special_pressed) := by
  have hz : apply_deadzone v = apply_deadzone (F32.lit 0 1) := by
    rw [apply_deadzone_small v h, apply_deadzone_zero]
  refine ⟨⟨update_cmds_congr P g w _ _ hz rfl rfl rfl rfl rfl rfl, ?_⟩,
    ⟨update_cmds_congr P g w _ _ rfl hz rfl rfl rfl rfl rfl, ?_⟩⟩
  · rcases update_state_uniform P g w with h1 | h1 <;> simp only [h1, and_self]
  · rcases update_state_uniform P g w with h1 | h1 <;> simp only [h1, and_self]

/-- Witness for C4: `-0.0625` on either axis. -/
theorem deadzone_as_zero_witness :
    F32.lt (F32.abs (F32.fin true (2 ^ 145))) JOYSTICK_DEADZONE = true ∧
    (update samplePlatform (some sampleGame) (some sampleView)
        { InputState.default with joystick_x := F32.fin true (2 ^ 145) }).cmds
      = (update samplePlatform (some sampleGame) (some sampleView)
        { InputState.default with joystick_x := F32.lit 0 1 }).cmds ∧
    (update samplePlatform (some sampleGame) (some sampleView)
        { InputState.default with joystick_y := F32.fin true (2 ^ 145) }).cmds
      = (update samplePlatform (some sampleGame) (some sampleView)
        { InputState.default with joystick_y := F32.lit 0 1 }).cmds :=
  have h : F32.lt (F32.abs (F32.fin true (2 ^ 145))) JOYSTICK_DEADZONE = true := by
    rw [deadzone_eq]; decide
  have t := deadzone_as_zero samplePlatform (some sampleGame) (some sampleView)
    InputState.default (F32.fin true (2 ^ 145)) h
  ⟨h, t.1.1, t.2.1⟩

/-! ## Vertical resolution -/

theorem not_lt_of_le (a b : F32) (h : F32.le a b = true) : F32.lt b a = false := by
  cases a with
  | nan => cases b <;> simp [F32.le] at h
  | inf n =>
    cases b with
    | nan => simp [F32.le] at h
    | inf m => cases n <;> cases m <;> simp_all [F32.le, F32.lt]
    | fin m k => cases n <;> simp_all [F32.le, F32.lt]
  | fin n k =>
    cases b with
    | nan => simp [F32.le] at h
    | inf m => cases m <;> simp_all [F32.le, F32.lt]
    | fin m j => simp_all [F32.le, F32.lt]

theorem jump_crouch_disjoint (y : F32) (h : F32.lt y JUMP_THRESHOLD = true) :
    F32.gt y CROUCH_THRESHOLD = false := by
  rw [jump_threshold_eq] at h
  rw [crouch_threshold_eq]
  cases y with
  | nan => rfl
  | inf n => cases n <;> simp_all [F32.lt, F32.gt]
  | fin n k => cases n <;> simp_all [F32.lt, F32.gt, F32.signed] <;> omega

/-- C5 (as amended): with the engine present, in one `update` on a view with a focused
entity the jump command `try_move(0, -1, 1)` is issued (once) exactly when `joystick_y < -0.5` or the jump
latch is set, the crouch command `try_move(0, 1, 0)` is issued (once) exactly when
`joystick_y > 0.5` and the jump latch is clear, neither is issued when
`-0.5 <= joystick_y <= 0.5` and the latch is clear, and never both. -/
theorem vertical_resolution (P : Platform) (g : game) (v : view) (p : game_object)
    (s : InputState) (h : v.focus = some p) :
    List.count (Cmd.try_move 0 (-1) 1) (update P (some g) (some v) s).cmds
      = (if F32.lt s.joystick_y JUMP_THRESHOLD = true ∨ s.jump_pressed = true then 1 else 0) ∧
    List.count (Cmd.try_move 0 1 0) (update P (some g) (some v) s).cmds
      = (if F32.gt s.joystick_y CROUCH_THRESHOLD = true ∧ s.jump_pressed = false
          then 1 else 0) ∧
    (F32.le JUMP_THRESHOLD s.joystick_y = true → F32.le s.joystick_y CROUCH_THRESHOLD = true →
      s.jump_pressed = false →
      Cmd.try_move 0 (-1) 1 ∉ (update P (some g) (some v) s).cmds ∧
      Cmd.try_move 0 1 0 ∉ (update P (some g) (some v) s).cmds) ∧
    ¬ (Cmd.try_move 0 (-1) 1 ∈ (update P (some g) (some v) s).cmds ∧
       Cmd.try_move 0 1 0 ∈ (update P (some g) (some v) s).cmds) := by
  have hj : List.count (Cmd.try_move 0 (-1) 1) (update P (some g) (some v) s).cmds
      = (if F32.lt s.joystick_y JUMP_THRESHOLD = true ∨ s.jump_pressed = true
          then 1 else 0) := by
    rw [update_focused_cmds P g v p s h, deadzone_keeps_jump, deadzone_keeps_crouch]
    have hd := jump_crouch_disjoint s.joystick_y
    obtain ⟨st, d, hh | hh⟩ := handle_horizontal_shape P (apply_deadzone s.joystick_x)
      { cmds := [], player := p } <;>
    · rw [hh]
      simp only [List.count_append, List.nil_append]
      split_ifs <;> simp_all
  have hc : List.count (Cmd.try_move 0 1 0) (update P (some g) (some v) s).cmds
      = (if F32.gt s.joystick_y CROUCH_THRESHOLD = true ∧ s.jump_pressed = false
          then 1 else 0) := by
    rw [update_focused_cmds P g v p s h, deadzone_keeps_jump, deadzone_keeps_crouch]
    have hd := jump_crouch_disjoint s.joystick_y
    obtain ⟨st, d, hh | hh⟩ := handle_horizontal_shape P (apply_deadzone s.joystick_x)
      { cmds := [], player := p } <;>
    · rw [hh]
      simp only [List.count_append, List.nil_append]
      split_ifs <;> simp_all
  refine ⟨hj, hc, ?_, ?_⟩
  · intro h1 h2 h3
    have n1 := not_lt_of_le _ _ h1
    have n2 : F32.gt s.joystick_y CROUCH_THRESHOLD = false := not_lt_of_le _ _ h2
    rw [← List.count_eq_zero, ← List.count_eq_zero, hj, hc]
    simp [n1, n2, h3]
  · rintro ⟨m1, m2⟩
    have hd := jump_crouch_disjoint s.joystick_y
    rw [← List.count_pos_iff] at m1 m2
    rw [hj] at m1
    rw [hc] at m2
    split_ifs at m1 m2 <;> simp_all

/-- Witness for C5: the stick pushed fully up (`joystick_y = -1`). -/
theorem vertical_resolution_witness :
    sampleView.focus = some { x := 0, y := 0 } ∧
    List.count (Cmd.try_move 0 (-1) 1)
      (update samplePlatform (some sampleGame) (some sampleView)
        { InputState.default with joystick_y := F32.fin true (2 ^ 149) }).cmds = 1 ∧
    List.count (Cmd.try_move 0 1 0)
      (update samplePlatform (some sampleGame) (some sampleView)
        { InputState.default with joystick_y := F32.fin true (2 ^ 149) }).cmds = 0 := by
  have t := vertical_resolution samplePlatform sampleGame sampleView { x := 0, y := 0 }
    { InputState.default with joystick_y := F32.fin true (2 ^ 149) } rfl
  refine ⟨rfl, ?_, ?_⟩
  · rw [t.1, jump_threshold_eq]; decide
  · rw [t.2.1, crouch_threshold_eq]; decide

/-! ## Horizontal speed -/

theorem wrap32_id (i : Int) (h1 : -(2 ^ 31) ≤ i) (h2 : i < 2 ^ 31) : wrap32 i = i := by
  unfold wrap32
  omega

theorem horizontal_moves_update (P : Platform) (g : game) (v : view) (p : game_object)
    (s : InputState) (h : v.focus = some p) :
    (update P (some g) (some v) s).cmds.filter Cmd.isHorizontalMove =
      if F32.ne (apply_deadzone s.joystick_x) (F32.lit 0 1) then
        [Cmd.try_move (wrap32 ((if F32.gt (apply_deadzone s.joystick_x) (F32.lit 0 1)
            then 1 else -1) *
          F32.toInt P.undef (F32.mul (F32.abs (apply_deadzone s.joystick_x)) (F32.ofInt 10))))
          0 0]
      else [] := by
  rw [update_focused_cmds P g v p s h, handle_horizontal_cmds]
  simp only [List.filter_append, List.nil_append]
  split_ifs <;> simp [Cmd.isHorizontalMove]

theorem beyond_deadzone (x : F32) (h : F32.le JOYSTICK_DEADZONE (F32.abs x) = true) :
    apply_deadzone x = x ∧ F32.ne x (F32.lit 0 1) = true := by
  have h1 := not_lt_of_le _ _ h
  refine ⟨by simp [apply_deadzone, h1], ?_⟩
  rw [deadzone_eq] at h
  rw [lit_zero]
  cases x with
  | nan => simp [F32.abs, F32.le] at h
  | inf n => simp [F32.ne, F32.eq]
  | fin n k =>
    have hpos : 0 < 13421773 * 2 ^ 122 := by decide
    generalize 13421773 * 2 ^ 122 = c at h hpos
    cases n <;> simp_all [F32.abs, F32.le, F32.ne, F32.eq, F32.signed] <;> omega

theorem ofInt_ten_units : F32.ofInt 10 = F32.fin false (10 * F32.unit) := by
  rw [ofInt_ten]; rfl

theorem int_max_float : (2 ^ 24 - 1) * 2 ^ 156 = 2147483520 * F32.unit := by decide

theorem int_max_float_finite : 2147483520 * F32.unit ≤ F32.maxFinite := by decide

theorem mul_ten_in_range (k : Nat) (hk : k * 10 ≤ 2147483520 * F32.unit) :
    F32.mul (F32.fin false k) (F32.ofInt 10)
      = F32.fin false (F32.roundUnits (k * (10 * F32.unit)) F32.unit) ∧
    F32.roundUnits (k * (10 * F32.unit)) F32.unit ≤ 2147483520 * F32.unit := by
  have hu : 0 < F32.unit := by decide
  have hb : F32.roundUnits (k * (10 * F32.unit)) F32.unit ≤ 2147483520 * F32.unit := by
    rw [← int_max_float]
    apply roundUnits_le _ _ _ _ hu (by decide)
    rw [int_max_float]
    calc k * (10 * F32.unit) = k * 10 * F32.unit := by ring
      _ ≤ 2147483520 * F32.unit * F32.unit := Nat.mul_le_mul_right _ hk
  refine ⟨?_, hb⟩
  rw [ofInt_ten_units]
  simp only [F32.mul, F32.round, Bool.xor_false]
  rw [if_pos (le_trans hb int_max_float_finite)]

theorem toInt_in_range (undef : F32 → Int) (r : Nat) (hr : r ≤ 2147483520 * F32.unit) :
    F32.toInt undef (F32.fin false r) = ((r / F32.unit : Nat) : Int) := by
  have ht : r / F32.unit ≤ 2147483520 := Nat.div_le_of_le_mul (by rw [Nat.mul_comm]; exact hr)
  simp only [F32.toInt, F32.signed]
  generalize r / F32.unit = t at *
  rw [if_pos]
  · simp
  · simp only [Bool.false_eq_true, if_false]
    omega

theorem direction_sign (n : Bool) (k t : Nat) (hk : 0 < k) (ht : t ≤ 2147483520) :
    wrap32 ((if F32.gt (F32.fin n k) (F32.fin false 0) then 1 else -1) * (t : Int))
      = F32.signed n t := by
  have hg : F32.gt (F32.fin n k) (F32.fin false 0) = !n := by
    cases n <;> simp [F32.gt, F32.lt, F32.signed]
    omega
  rw [hg]
  cases n <;> simp only [F32.signed, Bool.not_false, Bool.not_true, if_true,
    Bool.false_eq_true, if_false] <;> (unfold wrap32; omega)

theorem set_angles_update (P : Platform) (g : game) (v : view) (p : game_object)
    (s : InputState) (h : v.focus = some p) :
    (update P (some g) (some v) s).cmds.filter Cmd.isSetAngle =
      if F32.ne s.aim_screen_x (F32.lit 0 1) || F32.ne s.aim_screen_y (F32.lit 0 1)
      then [Cmd.set_angle (aim_angle P v s (player_at_aim P s p))] else [] := by
  rw [update_focused_cmds P g v p s h]
  obtain ⟨st, d, hh | hh⟩ := handle_horizontal_shape P (apply_deadzone s.joystick_x)
    { cmds := [], player := p } <;>
  · rw [hh]
    simp only [List.filter_append, List.nil_append]
    split_ifs <;> simp [Cmd.isSetAngle]

theorem within_pi (r : F32) (h : F32.le (F32.abs r) (F32.lit 314159265 100000000) = true) :
    ∃ n k, r = F32.fin n k ∧ k ≤ 13176795 * 2 ^ 127 := by
  rw [lit_pi] at h
  generalize 13176795 * 2 ^ 127 = c at h ⊢
  cases r with
  | nan => simp [F32.abs, F32.le] at h
  | inf n => simp [F32.abs, F32.le] at h
  | fin n k =>
    refine ⟨n, k, rfl, ?_⟩
    simp only [F32.abs, F32.le, F32.signed, Bool.false_eq_true, if_false,
      decide_eq_true_eq] at h
    omega

theorem degrees_bound (n : Bool) (k : Nat) (hk : k ≤ 13176795 * 2 ^ 127) :
    ∃ r, F32.div (F32.mul (F32.fin n k) (F32.lit 180 1)) (F32.lit 314159265 100000000)
        = F32.fin n r ∧ r / F32.unit ≤ 359 := by
  have hu : 0 < F32.unit := by decide
  have h1 : F32.roundUnits (k * (180 * 2 ^ 149)) F32.unit ≤ 1 * 2 ^ 159 := by
    apply roundUnits_le _ _ _ _ hu (by decide)
    calc k * (180 * 2 ^ 149) ≤ (13176795 * 2 ^ 127) * (180 * 2 ^ 149) :=
          Nat.mul_le_mul_right _ hk
      _ ≤ 1 * 2 ^ 159 * F32.unit := by decide
  have h2 : F32.roundUnits (F32.roundUnits (k * (180 * 2 ^ 149)) F32.unit * F32.unit)
      (13176795 * 2 ^ 127) ≤ 359 * 2 ^ 149 := by
    apply roundUnits_le _ _ _ _ (by decide) (by decide)
    calc F32.roundUnits (k * (180 * 2 ^ 149)) F32.unit * F32.unit
          ≤ (1 * 2 ^ 159) * F32.unit := Nat.mul_le_mul_right _ h1
      _ ≤ 359 * 2 ^ 149 * (13176795 * 2 ^ 127) := by decide
  refine ⟨F32.roundUnits (F32.roundUnits (k * (180 * 2 ^ 149)) F32.unit * F32.unit)
      (13176795 * 2 ^ 127), ?_, ?_⟩
  · rw [lit_180, lit_pi]
    simp only [F32.mul, F32.round, Bool.xor_false]
    rw [if_pos (le_trans h1 (by decide))]
    simp only [F32.div, Bool.xor_false, F32.round]
    rw [if_neg (by decide), if_pos (le_trans h2 (by decide))]
  · exact Nat.div_le_of_le_mul (le_trans h2 (by decide))

theorem toInt_of_convertible (undef : F32 → Int) (x : F32) (h : F32.IntConvertible x) :
    F32.toInt undef x = F32.trunc x := by
  cases x with
  | nan => exact absurd h (by simp [F32.IntConvertible])
  | inf n => exact absurd h (by simp [F32.IntConvertible])
  | fin n k =>
    simp only [F32.IntConvertible, InInt] at h
    simp only [F32.toInt, F32.trunc]
    rw [if_pos ⟨h.2, h.1⟩]

theorem angle_degrees_spec (P : Platform) (r : F32)
    (h : F32.le (F32.abs r) (F32.lit 314159265 100000000) = true) :
    angle_degrees P r =
        (if F32.trunc (F32.div (F32.mul r (F32.lit 180 1)) (F32.lit 314159265 100000000)) < 0
         then F32.trunc (F32.div (F32.mul r (F32.lit 180 1)) (F32.lit 314159265 100000000))
           + 360
         else F32.trunc (F32.div (F32.mul r (F32.lit 180 1)) (F32.lit 314159265 100000000))) ∧
    0 ≤ angle_degrees P r ∧ angle_degrees P r < 360 := by
  obtain ⟨n, k, rfl, hk⟩ := within_pi r h
  obtain ⟨r2, hr, hb⟩ := degrees_bound n k hk
  have hconv : F32.IntConvertible (F32.fin n r2) := by
    simp only [F32.IntConvertible, InInt, F32.signed]
    generalize r2 / F32.unit = t at hb
    cases n <;> simp <;> omega
  have hraw : -359 ≤ F32.trunc (F32.fin n r2) ∧ F32.trunc (F32.fin n r2) ≤ 359 := by
    simp only [F32.trunc, F32.signed]
    generalize r2 / F32.unit = t at hb
    cases n <;> simp <;> omega
  unfold angle_degrees
  simp only
  rw [hr, toInt_of_convertible P.undef _ hconv]
  generalize F32.trunc (F32.fin n r2) = raw at hraw
  split_ifs with hneg
  · rw [wrap32_id _ (by omega) (by omega)]
    exact ⟨rfl, by omega, by omega⟩
  · exact ⟨rfl, by omega, by omega⟩

theorem aim_angle_closed_form (P : Platform) (v : view) (s : InputState) (q : game_object)
    (hdef : AimDefined v s q)
    (hat : ∀ i j : Int, F32.le (F32.abs (P.atan2f (F32.ofInt i) (F32.ofInt j)))
      (F32.lit 314159265 100000000) = true) :
    aim_angle P v s q
      = angle_binary32 P.atan2f v.xoff v.yoff q s.aim_screen_x s.aim_screen_y := by
  obtain ⟨hcx, hcy, hwx, hwy, hdx, hdy⟩ := hdef
  unfold aim_angle angle_binary32
  simp only
  rw [toInt_of_convertible P.undef _ hcx, toInt_of_convertible P.undef _ hcy,
    wrap32_id _ hwx.1 hwx.2, wrap32_id _ hwy.1 hwy.2,
    wrap32_id _ hdx.1 hdx.2, wrap32_id _ hdy.1 hdy.2]
  exact (angle_degrees_spec P _ (hat _ _)).1

theorem aim_angle_range (P : Platform) (v : view) (s : InputState) (q : game_object)
    (hat : ∀ i j : Int, F32.le (F32.abs (P.atan2f (F32.ofInt i) (F32.ofInt j)))
      (F32.lit 314159265 100000000) = true) :
    0 ≤ aim_angle P v s q ∧ aim_angle P v s q < 360 :=
  (angle_degrees_spec P _ (hat _ _)).2

/-! ### The exact angle at `(289, 1639)` -/

theorem cos_eighty_lt : Real.cos (4 * Real.pi / 9) < 868241 / 5000000 := by
  have hpi := Real.pi_pos
  have h3 : Real.cos (3 * (4 * Real.pi / 9)) = -(1 / 2) := by
    have : 3 * (4 * Real.pi / 9) = Real.pi / 3 + Real.pi := by ring
    rw [this, Real.cos_add_pi, Real.cos_pi_div_three]
  rw [Real.cos_three_mul] at h3
  have hhalf : Real.cos (4 * Real.pi / 9) < 1 / 2 := by
    rw [← Real.cos_pi_div_three]
    apply Real.cos_lt_cos_of_nonneg_of_le_pi <;> linarith
  have hpos : 0 < Real.cos (4 * Real.pi / 9) := by
    apply Real.cos_pos_of_mem_Ioo
    constructor <;> linarith
  generalize Real.cos (4 * Real.pi / 9) = c at h3 hhalf hpos
  by_contra hc
  push_neg at hc
  nlinarith [mul_nonneg (sub_nonneg.mpr hc) (sub_nonneg.mpr hhalf.le), mul_pos hpos hpos,
    mul_nonneg (sub_nonneg.mpr hc) hpos.le, sq_nonneg (c - 868241 / 5000000)]

theorem arg_289_1639_bounds :
    79 * Real.pi / 180 < Complex.arg ⟨289, 1639⟩ ∧
    Complex.arg ⟨289, 1639⟩ < 4 * Real.pi / 9 := by
  have hpi := Real.pi_pos
  have hz : (⟨289, 1639⟩ : ℂ) ≠ 0 := by
    intro h
    have := congrArg Complex.re h
    norm_num at this
  have habs : Complex.abs ⟨289, 1639⟩ = √2769842 := by
    rw [Complex.abs_apply, Complex.normSq_mk]
    norm_num
  have hcos := Complex.cos_arg hz
  rw [habs] at hcos
  simp only at hcos
  have h0 : 0 ≤ Complex.arg ⟨289, 1639⟩ := Complex.arg_nonneg_iff.mpr (by norm_num)
  have hle : Complex.arg ⟨289, 1639⟩ ≤ Real.pi := Complex.arg_le_pi _
  have hs1 : √2769842 < 289 / (868241 / 5000000) := by
    rw [Real.sqrt_lt' (by norm_num)]
    norm_num
  have hs2 : (289 : ℝ) / (1737 / 10000) < √2769842 := by
    rw [Real.lt_sqrt (by norm_num)]
    norm_num
  have hspos : (0 : ℝ) < √2769842 := Real.sqrt_pos.mpr (by norm_num)
  have hc1 : 868241 / 5000000 < Real.cos (Complex.arg ⟨289, 1639⟩) := by
    rw [hcos, lt_div_iff₀ hspos]
    rw [lt_div_iff₀ (by norm_num)] at hs1
    linarith
  have hc2 : Real.cos (Complex.arg ⟨289, 1639⟩) < 1737 / 10000 := by
    rw [hcos, div_lt_iff₀ hspos]
    rw [div_lt_iff₀ (by norm_num)] at hs2
    linarith
  constructor
  · by_contra hcon
    push_neg at hcon
    have hmono : Real.cos (79 * Real.pi / 180) ≤ Real.cos (Complex.arg ⟨289, 1639⟩) := by
      rcases hcon.lt_or_eq with hl | he
      · exact (Real.cos_lt_cos_of_nonneg_of_le_pi h0 (by linarith) hl).le
      · rw [he]
    have hsin : Real.cos (79 * Real.pi / 180) = Real.sin (11 * Real.pi / 180) := by
      rw [← Real.cos_pi_div_two_sub]
      congr 1
      ring
    have hp1 := Real.pi_gt_d2
    have hp2 := Real.pi_lt_d2
    have hx0 : 0 < 11 * Real.pi / 180 := by positivity
    have hx1 : 11 * Real.pi / 180 ≤ 1 := by linarith
    have hsg := Real.sin_gt_sub_cube hx0 hx1
    have hxl : 0.1918 < 11 * Real.pi / 180 := by norm_num; linarith
    have hxu : 11 * Real.pi / 180 < 0.1925 := by norm_num; linarith
    generalize 11 * Real.pi / 180 = x at *
    nlinarith [mul_pos hx0 hx0, mul_pos (mul_pos hx0 hx0) hx0,
      mul_lt_mul'' hxu hxu hx0.le hx0.le]
  · by_contra hcon
    push_neg at hcon
    have hmono : Real.cos (Complex.arg ⟨289, 1639⟩) ≤ Real.cos (4 * Real.pi / 9) := by
      rcases hcon.lt_or_eq with hl | he
      · exact (Real.cos_lt_cos_of_nonneg_of_le_pi (by positivity) hle hl).le
      · rw [← he]
    linarith [cos_eighty_lt]

theorem exact_degree_289_1639 :
    ExactDegreeValue 1639 289 79 ∧ ¬ ExactDegreeValue 1639 289 80 := by
  have hpi := Real.pi_pos
  obtain ⟨h1, h2⟩ := arg_289_1639_bounds
  have hlo : (79 : ℝ) < Complex.arg ⟨289, 1639⟩ * 180 / Real.pi := by
    rw [lt_div_iff₀ hpi]; linarith
  have hhi : Complex.arg ⟨289, 1639⟩ * 180 / Real.pi < 80 := by
    rw [div_lt_iff₀ hpi]; linarith
  have hfl : ⌊Complex.arg ⟨289, 1639⟩ * 180 / Real.pi⌋ = 79 := by
    rw [Int.floor_eq_iff]
    constructor
    · push_cast; linarith
    · push_cast; linarith
  unfold ExactDegreeValue
  simp only [Int.cast_ofNat]
  constructor
  · exact ⟨fun _ => hfl.symm, fun h => absurd h (by linarith)⟩
  · rintro ⟨h, -⟩
    have := h (by linarith)
    rw [hfl] at this
    exact absurd this (by decide)

/-! ## Setters: frame and last write wins -/

theorem run_setters_fields (cs : List SetterCall) : ∀ s : InputState,
    (run_setters cs s).joystick_x
      = (match last_call SetterCall.movementArgs cs with
         | some v => clamp v.1 (F32.neg (F32.lit 1 1)) (F32.lit 1 1)
         | none => s.joystick_x) ∧
    (run_setters cs s).joystick_y
      = (match last_call SetterCall.movementArgs cs with
         | some v => clamp v.2 (F32.neg (F32.lit 1 1)) (F32.lit 1 1)
         | none => s.joystick_y) ∧
    (run_setters cs s).aim_screen_x
      = (match last_call SetterCall.aimArgs cs with
         | some v => v.1
         | none => s.aim_screen_x) ∧
    (run_setters cs s).aim_screen_y
      = (match last_call SetterCall.aimArgs cs with
         | some v => v.2
         | none => s.aim_screen_y) ∧
    (run_setters cs s).fire_pressed
      = (match last_call SetterCall.fireArg cs with
         | some b => b
         | none => s.fire_pressed) ∧
    (run_setters cs s).jump_pressed
      = (match last_call SetterCall.jumpArg cs with
         | some b => b
         | none => s.jump_pressed) ∧
    (run_setters cs s).special_pressed
      = (match last_call SetterCall.specialArg cs with
         | some b => b
         | none => s.special_pressed) := by
  induction cs with
  | nil => intro s; exact ⟨rfl, rfl, rfl, rfl, rfl, rfl, rfl⟩
  | cons c cs ih =>
    intro s
    obtain ⟨h1, h2, h3, h4, h5, h6, h7⟩ := ih (SetterCall.apply c s)
    simp only [run_setters, last_call]
    rw [h1, h2, h3, h4, h5, h6, h7]
    refine ⟨?_, ?_, ?_, ?_, ?_, ?_, ?_⟩
    · cases last_call SetterCall.movementArgs cs <;> cases c <;>
        simp only [SetterCall.apply, SetterCall.movementArgs, set_movement_input, set_aim_position,
          set_fire_button, set_jump_button, set_special_button]
    · cases last_call SetterCall.movementArgs cs <;> cases c <;>
        simp only [SetterCall.apply, SetterCall.movementArgs, set_movement_input, set_aim_position,
          set_fire_button, set_jump_button, set_special_button]
    · cases last_call SetterCall.aimArgs cs <;> cases c <;>
        simp only [SetterCall.apply, SetterCall.aimArgs, set_movement_input, set_aim_position,
          set_fire_button, set_jump_button, set_special_button]
    · cases last_call SetterCall.aimArgs cs <;> cases c <;>
        simp only [SetterCall.apply, SetterCall.aimArgs, set_movement_input, set_aim_position,
          set_fire_button, set_jump_button, set_special_button]
    · cases last_call SetterCall.fireArg cs <;> cases c <;>
        simp only [SetterCall.apply, SetterCall.fireArg, set_movement_input, set_aim_position,
          set_fire_button, set_jump_button, set_special_button]
    · cases last_call SetterCall.jumpArg cs <;> cases c <;>
        simp only [SetterCall.apply, SetterCall.jumpArg, set_movement_input, set_aim_position,
          set_fire_button, set_jump_button, set_special_button]
    · cases last_call SetterCall.specialArg cs <;> cases c <;>
        simp only [SetterCall.apply, SetterCall.specialArg, set_movement_input, set_aim_position,
          set_fire_button, set_jump_button, set_special_button]

/-- C11: `set_aim_position(sx, sy)` stores `sx`, `sy` as they are; the three button
setters store their argument; every setter, `set_movement_input` included, leaves
the fields that are not its own as they were; so after any sequence of setter calls
each field holds what the last call of its setter stored (for a joystick axis the
clamped argument), or its initial value if its setter was not called. -/
theorem setters_frame_last_write_wins (s : InputState) (x y sx sy : F32) (b : Bool)
    (cs : List SetterCall) :
    ((set_aim_position sx sy s).aim_screen_x = sx ∧
      (set_aim_position sx sy s).aim_screen_y = sy ∧
      (set_fire_button b s).fire_pressed = b ∧
      (set_jump_button b s).jump_pressed = b ∧
      (set_special_button b s).special_pressed = b) ∧
    (({ set_aim_position sx sy s with
          aim_screen_x := s.aim_screen_x, aim_screen_y := s.aim_screen_y } : InputState) = s ∧
      ({ set_fire_button b s with fire_pressed := s.fire_pressed } : InputState) = s ∧
      ({ set_jump_button b s with jump_pressed := s.jump_pressed } : InputState) = s ∧
      ({ set_special_button b s with special_pressed := s.special_pressed } : InputState) = s ∧
      ({ set_movement_input x y s with
          joystick_x := s.joystick_x, joystick_y := s.joystick_y } : InputState) = s) ∧
    ((run_setters cs s).joystick_x
        = (match last_call SetterCall.movementArgs cs with
           | some v => clamp v.1 (F32.neg (F32.lit 1 1)) (F32.lit 1 1)
           | none => s.joystick_x) ∧
      (run_setters cs s).joystick_y
        = (match last_call SetterCall.movementArgs cs with
           | some v => clamp v.2 (F32.neg (F32.lit 1 1)) (F32.lit 1 1)
           | none => s.joystick_y) ∧
      (run_setters cs s).aim_screen_x
        = (match last_call SetterCall.aimArgs cs with
           | some v => v.1
           | none => s.aim_screen_x) ∧
      (run_setters cs s).aim_screen_y
        = (match last_call SetterCall.aimArgs cs with
           | some v => v.2
           | none => s.aim_screen_y) ∧
      (run_setters cs s).fire_pressed
        = (match last_call SetterCall.fireArg cs with
           | some b => b
           | none => s.fire_pressed) ∧
      (run_setters cs s).jump_pressed
        = (match last_call SetterCall.jumpArg cs with
           | some b => b
           | none => s.jump_pressed) ∧
      (run_setters cs s).special_pressed
        = (match last_call SetterCall.specialArg cs with
           | some b => b
           | none => s.special_pressed)) := by
  refine ⟨?_, ?_, run_setters_fields cs s⟩
  · simp only [set_aim_position, set_fire_button, set_jump_button, set_special_button,
      and_self]
  · cases s
    simp only [set_aim_position, set_fire_button, set_jump_button, set_special_button,
      set_movement_input, and_self]

/-! ## Joystick range -/

theorem clamp_symmetric_range (c : Nat) (hc : 0 < c) (x : F32) :
    F32.le (F32.fin true c) (clamp x (F32.fin true c) (F32.fin false c)) = true ∧
    F32.le (clamp x (F32.fin true c) (F32.fin false c)) (F32.fin false c) = true := by
  rw [clamp_symmetric c hc x]
  cases x with
  | nan => simp [F32.le, F32.signed]
  | inf n => cases n <;> simp [F32.le, F32.lt, F32.gt, F32.signed]
  | fin n k =>
    cases n <;> simp only [reduceCtorEq, if_false] <;> split_ifs <;>
      simp_all [F32.le, F32.lt, F32.gt, F32.signed]

theorem clamp_in_unit_range (x : F32) :
    InUnitRange (clamp x (F32.neg (F32.lit 1 1)) (F32.lit 1 1)) := by
  unfold InUnitRange
  rw [lit_one]
  exact clamp_symmetric_range (2 ^ 149) (by decide) x

theorem default_in_unit_range :
    InUnitRange InputState.default.joystick_x ∧ InUnitRange InputState.default.joystick_y := by
  simp only [InputState.default, InUnitRange, lit_zero, lit_one]
  decide

theorem op_keeps_unit_range (o : Op) (s : InputState)
    (h : InUnitRange s.joystick_x ∧ InUnitRange s.joystick_y) :
    InUnitRange (Op.apply o s).joystick_x ∧ InUnitRange (Op.apply o s).joystick_y := by
  cases o with
  | setter c =>
    cases c with
    | movement x y =>
      simp only [Op.apply, SetterCall.apply, set_movement_input]
      exact ⟨clamp_in_unit_range x, clamp_in_unit_range y⟩
    | aim sx sy => exact h
    | fire b => exact h
    | jump b => exact h
    | special b => exact h
  | clear_input => exact default_in_unit_range
  | shutdown => exact default_in_unit_range
  | update P g v =>
    simp only [Op.apply]
    rcases update_state P g v s with e | e <;> rw [e] <;> exact h

theorem run_ops_keeps_unit_range (os : List Op) : ∀ s : InputState,
    InUnitRange s.joystick_x ∧ InUnitRange s.joystick_y →
    InUnitRange (run_ops os s).joystick_x ∧ InUnitRange (run_ops os s).joystick_y := by
  induction os with
  | nil => intro s h; exact h
  | cons o os ih => intro s h; exact ih _ (op_keeps_unit_range o s h)

/-- C12: in every snapshot reached from `initialize` by any sequence of setter,
`clear_input`, `shutdown` and `update` calls, `joystick_x` and `joystick_y` lie in
`[-1, 1]`. -/
theorem joystick_range_invariant (os : List Op) (s0 : InputState) :
    InUnitRange (run_ops os (init_input s0)).joystick_x ∧
    InUnitRange (run_ops os (init_input s0)).joystick_y :=
  run_ops_keeps_unit_range os (init_input s0) default_in_unit_range

/-! ## Locomotion state -/

theorem sign_cases (x : F32) :
    (F32.gt x (F32.lit 0 1) = true → F32.ne x (F32.lit 0 1) = true ∧
      F32.lt x (F32.lit 0 1) = false) ∧
    (F32.lt x (F32.lit 0 1) = true → F32.ne x (F32.lit 0 1) = true ∧
      F32.gt x (F32.lit 0 1) = false) ∧
    (F32.eq x (F32.lit 0 1) = true → F32.ne x (F32.lit 0 1) = false) := by
  rw [lit_zero]
  cases x with
  | nan => simp [F32.gt, F32.lt, F32.eq, F32.ne]
  | inf n => cases n <;> simp [F32.gt, F32.lt, F32.eq, F32.ne]
  | fin n k =>
    cases n <;> simp [F32.gt, F32.lt, F32.eq, F32.ne, F32.signed] <;> omega

theorem set_aistates_update (P : Platform) (g : game) (v : view) (p : game_object)
    (s : InputState) (h : v.focus = some p) :
    ∃ rest, (update P (some g) (some v) s).cmds =
        Cmd.set_aistate
          (if F32.ne (apply_deadzone s.joystick_x) (F32.lit 0 1) then
            (if F32.gt (apply_deadzone s.joystick_x) (F32.lit 0 1)
              then character_state.running_forward else character_state.running_backward)
           else character_state.stopped) :: rest ∧
      rest.filter Cmd.isSetAistate = [] := by
  rw [update_focused_cmds P g v p s h, handle_horizontal_cmds]
  by_cases hne : F32.ne (apply_deadzone s.joystick_x) (F32.lit 0 1) = true
  · simp only [hne, if_true, List.nil_append, List.cons_append]
    refine ⟨_, rfl, ?_⟩
    split_ifs <;> simp [Cmd.isSetAistate]
  · simp only [hne, if_false, List.nil_append, List.cons_append, Bool.false_eq_true]
    refine ⟨_, rfl, ?_⟩
    simp only [List.filter_append, List.nil_append]
    split_ifs <;> simp [Cmd.isSetAistate]

theorem vertical_members_update (P : Platform) (g : game) (v : view) (p : game_object)
    (s : InputState) (h : v.focus = some p) :
    ((F32.lt s.joystick_y JUMP_THRESHOLD = true ∨ s.jump_pressed = true) →
      Cmd.try_move 0 (-1) 1 ∈ (update P (some g) (some v) s).cmds) ∧
    (F32.gt s.joystick_y CROUCH_THRESHOLD = true → s.jump_pressed = false →
      Cmd.try_move 0 1 0 ∈ (update P (some g) (some v) s).cmds) := by
  rw [update_focused_cmds P g v p s h, deadzone_keeps_jump, deadzone_keeps_crouch]
  constructor
  · intro hj
    have hc : (F32.lt s.joystick_y JUMP_THRESHOLD || s.jump_pressed) = true := by
      simpa using hj
    simp only [hc, if_true, List.mem_append, List.mem_singleton, true_or, or_true]
  · intro hc hj
    have hd : F32.lt s.joystick_y JUMP_THRESHOLD = false := by
      cases hl : F32.lt s.joystick_y JUMP_THRESHOLD
      · rfl
      · rw [jump_crouch_disjoint s.joystick_y hl] at hc
        exact absurd hc (by decide)
    simp only [hd, hj, hc, Bool.or_self, Bool.false_eq_true, if_false, if_true,
      List.mem_append, List.mem_singleton, true_or, or_true]

/-- C13 (as amended): with the engine present, one `update` on a view with a focused
entity issues exactly one `set_aistate`, as its first command: `running_forward` if the deadzoned `joystick_x`
is positive, `running_backward` if it is negative, `stopped` if it is zero; with the
deadzoned `joystick_x` zero no horizontal move is issued, and `stopped` is issued
also in a call that issues the jump or the crouch command. -/
theorem locomotion_state (P : Platform) (g : game) (v : view) (p : game_object)
    (s : InputState) (h : v.focus = some p) :
    (∃ st rest, (update P (some g) (some v) s).cmds = Cmd.set_aistate st :: rest ∧
      rest.filter Cmd.isSetAistate = [] ∧
      (F32.gt (apply_deadzone s.joystick_x) (F32.lit 0 1) = true →
        st = character_state.running_forward) ∧
      (F32.lt (apply_deadzone s.joystick_x) (F32.lit 0 1) = true →
        st = character_state.running_backward) ∧
      (F32.eq (apply_deadzone s.joystick_x) (F32.lit 0 1) = true →
        st = character_state.stopped)) ∧
    (F32.eq (apply_deadzone s.joystick_x) (F32.lit 0 1) = true →
      (update P (some g) (some v) s).cmds.filter Cmd.isHorizontalMove = []) ∧
    (F32.eq (apply_deadzone s.joystick_x) (F32.lit 0 1) = true →
      (F32.lt s.joystick_y JUMP_THRESHOLD = true ∨ s.jump_pressed = true) →
      Cmd.set_aistate character_state.stopped ∈ (update P (some g) (some v) s).cmds ∧
      Cmd.try_move 0 (-1) 1 ∈ (update P (some g) (some v) s).cmds) ∧
    (F32.eq (apply_deadzone s.joystick_x) (F32.lit 0 1) = true →
      F32.gt s.joystick_y CROUCH_THRESHOLD = true → s.jump_pressed = false →
      Cmd.set_aistate character_state.stopped ∈ (update P (some g) (some v) s).cmds ∧
      Cmd.try_move 0 1 0 ∈ (update P (some g) (some v) s).cmds) := by
  obtain ⟨rest, hcmds, hrest⟩ := set_aistates_update P g v p s h
  have hsign := sign_cases (apply_deadzone s.joystick_x)
  have hstop : F32.eq (apply_deadzone s.joystick_x) (F32.lit 0 1) = true →
      Cmd.set_aistate character_state.stopped ∈ (update P (some g) (some v) s).cmds := by
    intro he
    rw [hcmds, hsign.2.2 he]
    simp
  have hvert := vertical_members_update P g v p s h
  refine ⟨⟨_, rest, hcmds, hrest, ?_, ?_, ?_⟩, ?_, ?_, ?_⟩
  · intro hg
    rw [(hsign.1 hg).1, hg]
    rfl
  · intro hl
    rw [(hsign.2.1 hl).1, (hsign.2.1 hl).2]
    rfl
  · intro he
    rw [hsign.2.2 he]
    rfl
  · intro he
    rw [horizontal_moves_update P g v p s h, hsign.2.2 he]
    rfl
  · intro he hj
    exact ⟨hstop he, hvert.1 hj⟩
  · intro he hc hj
    exact ⟨hstop he, hvert.2 hc hj⟩

set_option maxRecDepth 100000 in
/-- Witness for C13: stick at rest, jump latch set. -/
theorem locomotion_state_witness :
    sampleView.focus = some { x := 0, y := 0 } ∧
    Cmd.set_aistate character_state.stopped ∈
      (update samplePlatform (some sampleGame) (some sampleView)
        { InputState.default with jump_pressed := true }).cmds ∧
    Cmd.try_move 0 (-1) 1 ∈
      (update samplePlatform (some sampleGame) (some sampleView)
        { InputState.default with jump_pressed := true }).cmds :=
  ⟨rfl, (locomotion_state samplePlatform sampleGame sampleView { x := 0, y := 0 }
    { InputState.default with jump_pressed := true } rfl).2.2.1 (by decide) (Or.inr rfl)⟩

/-- C13 (as stated) fails without an engine instance: on a view with a focused
entity `update` returns at the `the_game` guard and issues no `set_aistate`. -/
theorem locomotion_state_engine_absent :
    sampleView.focus = some { x := 0, y := 0 } ∧
    (update samplePlatform none (some sampleView) InputState.default).cmds = [] ∧
    ¬ ∃ st, Cmd.set_aistate st ∈
      (update samplePlatform none (some sampleView) InputState.default).cmds := by
  refine ⟨rfl, rfl, ?_⟩
  rintro ⟨st, hst⟩
  exact absurd hst (List.not_mem_nil _)

/-! ## Aim at the origin -/

/-- C14 (as amended): with the engine present, on a view with a focused entity
`update` issues a `set_angle` command if and only if `aim_screen_x != 0` or
`aim_screen_y != 0`; with both aim coordinates zero
none is issued, whatever the entity position and the view offset, and otherwise
exactly one. -/
theorem aim_origin_is_no_update (P : Platform) (g : game) (v : view) (p : game_object)
    (s : InputState) (h : v.focus = some p) :
    ((∃ a, Cmd.set_angle a ∈ (update P (some g) (some v) s).cmds) ↔
      (F32.ne s.aim_screen_x (F32.lit 0 1) = true ∨
        F32.ne s.aim_screen_y (F32.lit 0 1) = true)) ∧
    (F32.eq s.aim_screen_x (F32.lit 0 1) = true → F32.eq s.aim_screen_y (F32.lit 0 1) = true →
      (update P (some g) (some v) s).cmds.filter Cmd.isSetAngle = []) ∧
    ((F32.ne s.aim_screen_x (F32.lit 0 1) = true ∨
        F32.ne s.aim_screen_y (F32.lit 0 1) = true) →
      ∃ a, (update P (some g) (some v) s).cmds.filter Cmd.isSetAngle = [Cmd.set_angle a]) := by
  have hf := set_angles_update P g v p s h
  have hmem : ∀ a, Cmd.set_angle a ∈ (update P (some g) (some v) s).cmds ↔
      Cmd.set_angle a ∈ (update P (some g) (some v) s).cmds.filter Cmd.isSetAngle := by
    intro a
    rw [List.mem_filter]
    simp [Cmd.isSetAngle]
  refine ⟨⟨?_, ?_⟩, ?_, ?_⟩
  · rintro ⟨a, ha⟩
    rw [hmem, hf] at ha
    by_cases hc : (F32.ne s.aim_screen_x (F32.lit 0 1) ||
        F32.ne s.aim_screen_y (F32.lit 0 1)) = true
    · simpa using hc
    · rw [if_neg hc] at ha
      exact absurd ha (List.not_mem_nil _)
  · intro hc
    refine ⟨aim_angle P v s (player_at_aim P s p), (hmem _).mpr ?_⟩
    rw [hf, if_pos (by simpa using hc)]
    exact List.mem_singleton_self _
  · intro hx hy
    rw [hf, if_neg]
    simp [F32.ne, hx, hy]
  · intro hc
    rw [hf, if_pos (by simpa using hc)]
    exact ⟨_, rfl⟩

set_option maxRecDepth 100000 in
/-- Witness for C14: aim at the origin, entity at the origin. -/
theorem aim_origin_is_no_update_witness :
    sampleView.focus = some { x := 0, y := 0 } ∧
    F32.eq InputState.default.aim_screen_x (F32.lit 0 1) = true ∧
    F32.eq InputState.default.aim_screen_y (F32.lit 0 1) = true ∧
    (update samplePlatform (some sampleGame) (some sampleView) InputState.default).cmds.filter
      Cmd.isSetAngle = [] :=
  ⟨rfl, by decide, by decide,
    (aim_origin_is_no_update samplePlatform sampleGame sampleView { x := 0, y := 0 }
      InputState.default rfl).2.1 (by decide) (by decide)⟩

set_option maxRecDepth 100000 in
/-- C14 (as stated) fails without an engine instance: with `aim_screen_x = 1` on a
view with a focused entity `update` returns at the `the_game` guard and issues no
`set_angle`. -/
theorem aim_engine_absent :
    sampleView.focus = some { x := 0, y := 0 } ∧
    F32.ne (F32.lit 1 1) (F32.lit 0 1) = true ∧
    (update samplePlatform none (some sampleView)
      { InputState.default with aim_screen_x := F32.lit 1 1 }).cmds = [] ∧
    ¬ ∃ a, Cmd.set_angle a ∈
      (update samplePlatform none (some sampleView)
        { InputState.default with aim_screen_x := F32.lit 1 1 }).cmds := by
  refine ⟨rfl, by decide, rfl, ?_⟩
  rintro ⟨a, ha⟩
  exact absurd ha (List.not_mem_nil _)

/-! ## Bounds of the horizontal move -/

theorem unit_range_finite (x : F32) (h : InUnitRange x) :
    ∃ n k, x = F32.fin n k ∧ k ≤ F32.unit := by
  unfold InUnitRange at h
  rw [lit_one] at h
  have hu : F32.unit = 2 ^ 149 := rfl
  rw [hu]
  generalize 2 ^ 149 = c at h ⊢
  cases x with
  | nan => simp [F32.le] at h
  | inf n => cases n <;> simp [F32.le, F32.neg] at h
  | fin n k =>
    refine ⟨n, k, rfl, ?_⟩
    cases n <;> simp [F32.le, F32.neg, F32.signed] at h <;> omega

theorem move_argument_finite (undef : F32 → Int) (n : Bool) (k : Nat) (hpos : 0 < k)
    (hk : k * 10 ≤ 2147483520 * F32.unit) :
    wrap32 ((if F32.gt (F32.fin n k) (F32.lit 0 1) then 1 else -1) *
        F32.toInt undef (F32.mul (F32.abs (F32.fin n k)) (F32.ofInt 10)))
      = F32.signed n (F32.roundUnits (k * (10 * F32.unit)) F32.unit / F32.unit) := by
  have hm := mul_ten_in_range k hk
  have ht : F32.roundUnits (k * (10 * F32.unit)) F32.unit / F32.unit ≤ 2147483520 :=
    Nat.div_le_of_le_mul (by
      have h3 := hm.2
      rw [Nat.mul_comm 2147483520 F32.unit] at h3
      exact h3)
  rw [lit_zero]
  simp only [F32.abs]
  rw [hm.1, toInt_in_range undef _ hm.2, direction_sign n k _ hpos ht]

theorem tenfold_bounds (k : Nat) (h1 : 13421773 * 2 ^ 122 ≤ k) (h2 : k ≤ F32.unit) :
    1 ≤ F32.roundUnits (k * (10 * F32.unit)) F32.unit / F32.unit ∧
    F32.roundUnits (k * (10 * F32.unit)) F32.unit / F32.unit ≤ 10 := by
  have hu : 0 < F32.unit := by decide
  have hlow : 1 * 2 ^ 149 ≤ F32.roundUnits (k * (10 * F32.unit)) F32.unit := by
    apply roundUnits_ge _ _ _ _ hu (by decide)
    calc 1 * 2 ^ 149 * F32.unit ≤ 13421773 * 2 ^ 122 * (10 * F32.unit) := by decide
      _ ≤ k * (10 * F32.unit) := Nat.mul_le_mul_right _ h1
  have hhigh : F32.roundUnits (k * (10 * F32.unit)) F32.unit ≤ 10 * 2 ^ 149 := by
    apply roundUnits_le _ _ _ _ hu (by decide)
    calc k * (10 * F32.unit) ≤ F32.unit * (10 * F32.unit) := Nat.mul_le_mul_right _ h2
      _ = 10 * 2 ^ 149 * F32.unit := by decide
  constructor
  · rw [Nat.le_div_iff_mul_le hu]
    exact hlow
  · exact Nat.div_le_of_le_mul (by
      calc F32.roundUnits (k * (10 * F32.unit)) F32.unit ≤ 10 * 2 ^ 149 := hhigh
        _ = F32.unit * 10 := by decide)

theorem sign_of_finite (n : Bool) (k : Nat) (hpos : 0 < k) :
    F32.gt (F32.fin n k) (F32.lit 0 1) = !n ∧ F32.lt (F32.fin n k) (F32.lit 0 1) = n := by
  rw [lit_zero]
  cases n <;> simp [F32.gt, F32.lt, F32.signed] <;> omega

theorem moved_axis (x : F32) (hr : InUnitRange x)
    (hne : F32.ne (apply_deadzone x) (F32.lit 0 1) = true) :
    ∃ n k, x = F32.fin n k ∧ apply_deadzone x = F32.fin n k ∧
      13421773 * 2 ^ 122 ≤ k ∧ k ≤ F32.unit := by
  obtain ⟨n, k, rfl, hk⟩ := unit_range_finite x hr
  refine ⟨n, k, rfl, ?_⟩
  by_cases hl : F32.lt (F32.abs (F32.fin n k)) JOYSTICK_DEADZONE = true
  · rw [apply_deadzone_small _ hl, lit_zero] at hne
    exact absurd hne (by decide)
  · refine ⟨by simp [apply_deadzone, hl], ?_, hk⟩
    rw [deadzone_eq] at hl
    generalize 13421773 * 2 ^ 122 = c at hl ⊢
    simp only [F32.abs, F32.lt, F32.signed, Bool.false_eq_true, if_false,
      decide_eq_true_eq] at hl
    omega

theorem issued_means_focused (P : Platform) (g : Option game) (v : Option view)
    (s : InputState) (c : Cmd) (hc : c ∈ (update P g v s).cmds) :
    ∃ e w p, g = some e ∧ v = some w ∧ w.focus = some p := by
  cases v with
  | none => exact absurd hc (List.not_mem_nil _)
  | some w =>
    cases hw : w.focus with
    | none =>
      simp only [update, hw] at hc
      exact absurd hc (List.not_mem_nil _)
    | some p =>
      cases g with
      | none =>
        simp only [update, hw] at hc
        exact absurd hc (List.not_mem_nil _)
      | some e => exact ⟨e, w, p, rfl, rfl, hw⟩

/-- C15: in every snapshot reached from `initialize` by setter, `clear_input`,
`shutdown` and `update` calls, a horizontal move `try_move(d, 0, 0)` issued by
`update` has `1 <= |d| <= 10`, so `d` is never 0, and `d` has the sign of
`joystick_x`: positive together with `running_forward`, negative together with
`running_backward`. -/
theorem horizontal_move_bounds (os : List Op) (s0 : InputState) (P : Platform)
    (g : Option game) (v : Option view) (d : Int)
    (hd : Cmd.try_move d 0 0 ∈ (update P g v (run_ops os (init_input s0))).cmds) :
    1 ≤ d.natAbs ∧ d.natAbs ≤ 10 ∧ d ≠ 0 ∧
    (0 < d ↔ F32.gt (run_ops os (init_input s0)).joystick_x (F32.lit 0 1) = true) ∧
    (d < 0 ↔ F32.lt (run_ops os (init_input s0)).joystick_x (F32.lit 0 1) = true) ∧
    (0 < d → Cmd.set_aistate character_state.running_forward ∈
      (update P g v (run_ops os (init_input s0))).cmds) ∧
    (d < 0 → Cmd.set_aistate character_state.running_backward ∈
      (update P g v (run_ops os (init_input s0))).cmds) := by
  have hinv := (run_ops_keeps_unit_range os (init_input s0) default_in_unit_range).1
  generalize run_ops os (init_input s0) = s at hd hinv ⊢
  obtain ⟨e, w, p, rfl, rfl, h⟩ := issued_means_focused P g v s _ hd
  have hfil : Cmd.try_move d 0 0 ∈
      (update P (some e) (some w) s).cmds.filter Cmd.isHorizontalMove :=
    List.mem_filter.mpr ⟨hd, by simp [Cmd.isHorizontalMove]⟩
  rw [horizontal_moves_update P e w p s h] at hfil
  by_cases hne : F32.ne (apply_deadzone s.joystick_x) (F32.lit 0 1) = true
  · rw [if_pos hne, List.mem_singleton] at hfil
    obtain ⟨n, k, hx, hdz, hk1, hk2⟩ := moved_axis s.joystick_x hinv hne
    have hpos : 0 < k := lt_of_lt_of_le (by decide) hk1
    have hk10 : k * 10 ≤ 2147483520 * F32.unit :=
      le_trans (Nat.mul_le_mul_right _ hk2) (by decide)
    have hval := Cmd.try_move.inj hfil
    rw [hdz, move_argument_finite P.undef n k hpos hk10] at hval
    obtain ⟨t1, t2⟩ := tenfold_bounds k hk1 hk2
    obtain ⟨sg, sl⟩ := sign_of_finite n k hpos
    obtain ⟨rest, hcmds, -⟩ := set_aistates_update P e w p s h
    rw [hdz, if_pos (by rw [← hdz]; exact hne), sg] at hcmds
    rw [hx, sg, sl, hcmds]
    have hdv := hval.1
    generalize F32.roundUnits (k * (10 * F32.unit)) F32.unit / F32.unit = t at hdv t1 t2
    cases n <;> simp only [F32.signed, Bool.false_eq_true, if_false, if_true] at hdv <;>
      subst hdv <;> simp <;> omega
  · rw [if_neg hne] at hfil
    exact absurd hfil (List.not_mem_nil _)

set_option maxRecDepth 100000 in
/-- Witness for C15: `set_movement_input(0.5, 0)` after `initialize`, then `update`. -/
theorem horizontal_move_bounds_witness :
    Cmd.try_move 5 0 0 ∈
      (update samplePlatform (some sampleGame) (some sampleView)
        (run_ops [Op.setter (SetterCall.movement (F32.lit 5 10) (F32.lit 0 1))]
          (init_input InputState.default))).cmds ∧
    Cmd.set_aistate character_state.running_forward ∈
      (update samplePlatform (some sampleGame) (some sampleView)
        (run_ops [Op.setter (SetterCall.movement (F32.lit 5 10) (F32.lit 0 1))]
          (init_input InputState.default))).cmds :=
  ⟨by decide,
    (horizontal_move_bounds [Op.setter (SetterCall.movement (F32.lit 5 10) (F32.lit 0 1))]
      InputState.default samplePlatform (some sampleGame) (some sampleView) 5
      (by decide)).2.2.2.2.2.1 (by decide)⟩

/-! ## Engine absent: jump and fire -/

/-- C5 (as stated) fails without an engine instance: with the jump latch set, on a
view with a focused entity, `update` returns at the `the_game` guard and issues no
jump command. -/
theorem vertical_resolution_engine_absent :
    sampleView.focus = some { x := 0, y := 0 } ∧
    ({ InputState.default with jump_pressed := true } : InputState).jump_pressed = true ∧
    (update samplePlatform none (some sampleView)
      { InputState.default with jump_pressed := true }).cmds = [] ∧
    Cmd.try_move 0 (-1) 1 ∉
      (update samplePlatform none (some sampleView)
        { InputState.default with jump_pressed := true }).cmds :=
  ⟨rfl, rfl, rfl, List.not_mem_nil _⟩

/-- C10 (as stated) fails without an engine instance: with the fire latch set, on a
view with a focused entity, `update` returns at the `the_game` guard and issues no
`fire`. -/
theorem continuous_fire_engine_absent :
    sampleView.focus = some { x := 0, y := 0 } ∧
    ({ InputState.default with fire_pressed := true } : InputState).fire_pressed = true ∧
    (update samplePlatform none (some sampleView)
      { InputState.default with fire_pressed := true }).cmds = [] ∧
    List.count Cmd.fire
      (update samplePlatform none (some sampleView)
        { InputState.default with fire_pressed := true }).cmds = 0 :=
  ⟨rfl, rfl, rfl, rfl⟩

/-! ## Angle normalization -/

set_option maxRecDepth 100000 in
/-- C7 (as amended): whenever `update` passes an angle to `set_angle`, with an
`atan2f` whose results on converted integers are within `[-pi, pi]`, it passes
exactly one; the angle is an integer in `[0, 360)`; where the conversions and the
`int` arithmetic of the aim step are defined, it is the truncation of the binary32
value `atan2f(dy, dx) * 180.0f / 3.14159265f`, each operation rounded, with
`dx = xoff + trunc(aim_screen_x) - (entity.x >> 16)` and `dy` alike, plus 360 when
negative; for the entity at `(0, 0)` and the aim point `(-1, -1)` the raw value is
`-135` and the angle is `225`. -/
theorem angle_normalization (P : Platform) (g : Option game) (v : Option view)
    (s : InputState) (a : Int)
    (hat : ∀ i j : Int, F32.le (F32.abs (P.atan2f (F32.ofInt i) (F32.ofInt j)))
      (F32.lit 314159265 100000000) = true)
    (ha : Cmd.set_angle a ∈ (update P g v s).cmds) :
    (update P g v s).cmds.filter Cmd.isSetAngle = [Cmd.set_angle a] ∧
    0 ≤ a ∧ a < 360 ∧
    (∀ w p, v = some w → w.focus = some p → AimDefined w s (player_at_aim P s p) →
      a = angle_binary32 P.atan2f w.xoff w.yoff (player_at_aim P s p)
        s.aim_screen_x s.aim_screen_y) ∧
    (P.atan2f (F32.ofInt (-1)) (F32.ofInt (-1)) = F32.fin true (2470649 * 2 ^ 129) →
      F32.trunc (F32.div (F32.mul (P.atan2f (F32.ofInt (-1)) (F32.ofInt (-1)))
        (F32.lit 180 1)) (F32.lit 314159265 100000000)) = -135 ∧
      angle_binary32 P.atan2f 0 0 { x := 0, y := 0 } (F32.neg (F32.lit 1 1))
        (F32.neg (F32.lit 1 1)) = 225) := by
  obtain ⟨e, w, p, rfl, rfl, h⟩ := issued_means_focused P g v s _ ha
  have hf := set_angles_update P e w p s h
  have hmem : Cmd.set_angle a ∈ (update P (some e) (some w) s).cmds.filter Cmd.isSetAngle :=
    List.mem_filter.mpr ⟨ha, rfl⟩
  have hval : a = aim_angle P w s (player_at_aim P s p) := by
    rw [hf] at hmem
    split_ifs at hmem
    · exact (Cmd.set_angle.inj (List.mem_singleton.mp hmem))
    · exact absurd hmem (List.not_mem_nil _)
  have hone : (update P (some e) (some w) s).cmds.filter Cmd.isSetAngle
      = [Cmd.set_angle a] := by
    rw [hf] at hmem ⊢
    split_ifs at hmem ⊢
    · rw [hval]
    · exact absurd hmem (List.not_mem_nil _)
  have hrange := aim_angle_range P w s (player_at_aim P s p) hat
  refine ⟨hone, by rw [hval]; exact hrange.1, by rw [hval]; exact hrange.2, ?_, ?_⟩
  · intro w2 p2 hw hp hdef
    cases hw
    rw [h] at hp
    cases hp
    rw [hval]
    exact aim_angle_closed_form P w s _ hdef hat
  · intro hatan
    have hd : (0 : Int) + F32.trunc (F32.neg (F32.lit 1 1))
        - (({ x := 0, y := 0 } : game_object).x >>> 16) = -1 := by decide
    refine ⟨?_, ?_⟩
    · rw [hatan]; decide
    · unfold angle_binary32
      simp only
      rw [hd, hatan]
      decide

theorem samplePlatform_atan2f_range (i j : Int) :
    F32.le (F32.abs (samplePlatform.atan2f (F32.ofInt i) (F32.ofInt j)))
      (F32.lit 314159265 100000000) = true := by
  simp only [samplePlatform]
  split_ifs
  · rw [lit_pi]; decide
  · rw [lit_pi, lit_zero]; decide

theorem nearestPlatform_atan2f_range (i j : Int) :
    F32.le (F32.abs (nearestPlatform.atan2f (F32.ofInt i) (F32.ofInt j)))
      (F32.lit 314159265 100000000) = true := by
  simp only [nearestPlatform]
  split_ifs
  · rw [lit_pi]; decide
  · rw [lit_pi, lit_zero]; decide

set_option maxRecDepth 100000 in
/-- Witness for C7: entity at the origin, no view offset, aim point `(-1, -1)`. -/
theorem angle_normalization_witness :
    (∀ i j : Int, F32.le (F32.abs (samplePlatform.atan2f (F32.ofInt i) (F32.ofInt j)))
      (F32.lit 314159265 100000000) = true) ∧
    Cmd.set_angle 225 ∈
      (update samplePlatform (some sampleGame) (some sampleView)
        { InputState.default with
          aim_screen_x := F32.neg (F32.lit 1 1)
          aim_screen_y := F32.neg (F32.lit 1 1) }).cmds ∧
    (update samplePlatform (some sampleGame) (some sampleView)
        { InputState.default with
          aim_screen_x := F32.neg (F32.lit 1 1)
          aim_screen_y := F32.neg (F32.lit 1 1) }).cmds.filter Cmd.isSetAngle
      = [Cmd.set_angle 225] :=
  ⟨samplePlatform_atan2f_range, by decide,
    (angle_normalization samplePlatform (some sampleGame) (some sampleView)
      { InputState.default with
        aim_screen_x := F32.neg (F32.lit 1 1)
        aim_screen_y := F32.neg (F32.lit 1 1) } 225
      samplePlatform_atan2f_range (by decide)).1⟩

set_option maxRecDepth 100000 in
/-- C7 (as stated) fails at `dx = 289`, `dy = 1639` (entity at the origin, no view
offset, aim point `(289, 1639)`): the exact angle lies strictly between 79 and 80
degrees, so its integer degree value is 79, while the binary32 computation rounds to
`80.0` and `update` passes 80 to `set_angle`. -/
theorem angle_at_289_1639 :
    ExactDegreeValue 1639 289 79 ∧ ¬ ExactDegreeValue 1639 289 80 ∧
    (∀ i j : Int, F32.le (F32.abs (nearestPlatform.atan2f (F32.ofInt i) (F32.ofInt j)))
      (F32.lit 314159265 100000000) = true) ∧
    AimDefined sampleView
      { InputState.default with
        aim_screen_x := F32.lit 289 1
        aim_screen_y := F32.lit 1639 1 } { x := 0, y := 0 } ∧
    sampleView.xoff + F32.trunc (F32.lit 289 1) - ((0 : Int) >>> 16) = 289 ∧
    sampleView.yoff + F32.trunc (F32.lit 1639 1) - ((0 : Int) >>> 16) = 1639 ∧
    (update nearestPlatform (some sampleGame) (some sampleView)
        { InputState.default with
          aim_screen_x := F32.lit 289 1
          aim_screen_y := F32.lit 1639 1 }).cmds.filter Cmd.isSetAngle
      = [Cmd.set_angle 80] :=
  ⟨exact_degree_289_1639.1, exact_degree_289_1639.2, nearestPlatform_atan2f_range,
    by decide, by decide, by decide, by decide⟩

end mobile_input
